import Mathlib

/-! zap: command handlers of the MicroPython CLI tool (`main.go`)

Shallow embedding of the command handlers `cmdCat` .. `cmdUpload` and `cmdRepl`.

The handlers are sequential Go functions whose only effects are calls into
package `repl` (the session), `fmt.Print`/`fmt.Println`, the console package and
`io.Copy`.  Everything outside `main.go` is a parameter: a `Repl σ` is an
arbitrary deterministic behaviour of those collaborators over a hidden state
`σ`.  Every call a handler makes is appended, with its arguments and its result,
to a trace, and the properties below are statements about that trace, about the
returned `error`, and about the text the handler prints.
-/

namespace Zap

/-- A non-nil Go `error` value.  `Option Err` is a Go `error`; `none` is `nil`. -/
abbrev Err := String

/-- The three byte streams the handlers name: `r.Port`, `os.Stdin`, `os.Stdout`. -/
inductive Stream
  | Port
  | Stdin
  | Stdout
  deriving DecidableEq, Repr

/-- Error half of a `Read` result: `io.EOF` or any other error. -/
inductive ReadErr
  | EOF
  | other (e : Err)
  deriving DecidableEq, Repr

/-- Result `(n, err)` of one `Read`; `n` is `data.length`. -/
structure ReadResult where
  data : List Nat
  err : Option ReadErr
  deriving DecidableEq, Repr

/-- Result `(n, err)` of one `Write`. -/
structure WriteResult where
  nw : Int
  err : Option Err
  deriving DecidableEq, Repr

/-- A session operation of package `repl` together with the arguments it is called with. -/
inductive Call
  | Cat (sink : Stream) (file : String)
  | Cd (path : String)
  | Download
  | Get (dst src : String)
  | Ls
  | Mkdir (dir : String)
  | Put (dst src : String)
  | Cwd
  | SoftReboot
  | Rm (file : String)
  | Rmdir (dir : String)
  | Upload
  deriving DecidableEq, Repr

/-- The non-error part of what a session operation returns. -/
inductive Value
  | unit
  | names (fs : List String)
  | path (cwd : String)
  deriving DecidableEq, Repr

/-- One observable action of a handler, with the result the collaborator gave. -/
inductive Event
  | connect (device : String) (baudrate : Int) (err : Option Err)
  | enterRawMode (err : Option Err)
  | exitRawMode (err : Option Err)
  | op (c : Call) (v : Value) (err : Option Err)
  | print (s : String)
  | consoleCurrent (ok : Bool)
  | setRaw (err : Option Err)
  | reset (err : Option Err)
  | go (dst src : Stream)
  | read (src : Stream) (r : ReadResult)
  | write (dst : Stream) (data : List Nat) (r : WriteResult)
  deriving DecidableEq, Repr

/-- Behaviour of everything the handlers call: package `repl` (`Connect` and the methods
of the session it returns), the console package, the three byte streams and the
goroutine scheduler.  The session `r` returned by `Connect` is the hidden state. -/
structure Repl (σ : Type) where
  Connect : String → Int → σ → Option Err × σ
  EnterRawMode : σ → Option Err × σ
  ExitRawMode : σ → Option Err × σ
  Cat : Stream → String → σ → Option Err × σ
  Cd : String → σ → Option Err × σ
  Download : σ → Option Err × σ
  Get : String → String → σ → Option Err × σ
  Ls : σ → (List String × Option Err) × σ
  Mkdir : String → σ → Option Err × σ
  Put : String → String → σ → Option Err × σ
  Cwd : σ → (String × Option Err) × σ
  SoftReboot : σ → Option Err × σ
  Rm : String → σ → Option Err × σ
  Rmdir : String → σ → Option Err × σ
  Upload : σ → Option Err × σ
  consoleCurrent : σ → Bool × σ
  SetRaw : σ → Option Err × σ
  Reset : σ → Option Err × σ
  Read : Stream → σ → ReadResult × σ
  Write : Stream → List Nat → σ → WriteResult × σ
  schedule : σ → Bool × σ

/-- The `*cli.Context` a handler receives: flag values and positional arguments. -/
structure Context where
  strings : String → String
  ints : String → Int
  args : List String

/-- Go `string`. -/
abbrev GoString := String

/-- Go `int`, unbounded here: the handlers only pass it on. -/
abbrev GoInt := Int

/-- The call `ctx.String(name)`. -/
def Context.String (ctx : Context) (name : GoString) : GoString := ctx.strings name

/-- The call `ctx.Int(name)`. -/
def Context.Int (ctx : Context) (name : GoString) : GoInt := ctx.ints name

/-- The value of `ctx.Args()`. -/
structure Args where
  vals : List String

/-- The call `ctx.Args()`. -/
def Context.Args (ctx : Context) : Args := ⟨ctx.args⟩

/-- The call `Args.Get(n)`: the n-th argument, or the empty string when there is none. -/
def Args.Get (a : Args) (n : Nat) : String := a.vals.getD n ""

/-- The call `Args.Len()`. -/
def Args.Len (a : Args) : Nat := a.vals.length

/-- State of a run: the collaborators' state and the trace so far. -/
structure Run (σ : Type) where
  world : σ
  trace : List Event

/-- Handlers are state-passing functions over `Run σ`. -/
abbrev M (σ : Type) := StateM (Run σ)

/-- Perform one collaborator call and log it. -/
def perform {σ α : Type} (f : σ → α × σ) (ev : α → Event) : M σ α :=
  fun st => let r := f st.world; (r.1, ⟨r.2, st.trace ++ [ev r.1]⟩)

/-- Emit an event with no collaborator involved. -/
def emit {σ : Type} (ev : Event) : M σ Unit :=
  fun st => ((), ⟨st.world, st.trace ++ [ev]⟩)

section calls
variable {σ : Type} (w : Repl σ)

/-- The call `repl.Connect(device, baudrate)`, logged with its result. -/
def Connect (device : String) (baudrate : Int) : M σ (Option Err) :=
  perform (w.Connect device baudrate) (Event.connect device baudrate)

/-- The call `r.EnterRawMode(..)` on the session, logged with its result. -/
def EnterRawMode : M σ (Option Err) := perform w.EnterRawMode Event.enterRawMode

/-- The call `r.ExitRawMode(..)` on the session, logged with its result. -/
def ExitRawMode : M σ (Option Err) := perform w.ExitRawMode Event.exitRawMode

/-- The call `r.Cat(..)` on the session, logged with its result. -/
def Cat (sink : Stream) (file : String) : M σ (Option Err) :=
  perform (w.Cat sink file) (Event.op (.Cat sink file) .unit)

/-- The call `r.Cd(..)` on the session, logged with its result. -/
def Cd (path : String) : M σ (Option Err) :=
  perform (w.Cd path) (Event.op (.Cd path) .unit)

/-- The call `r.Download(..)` on the session, logged with its result. -/
def Download : M σ (Option Err) := perform w.Download (Event.op .Download .unit)

/-- The call `r.Get(..)` on the session, logged with its result. -/
def Get (dst src : String) : M σ (Option Err) :=
  perform (w.Get dst src) (Event.op (.Get dst src) .unit)

/-- The call `r.Ls(..)` on the session, logged with its result. -/
def Ls : M σ (List String × Option Err) :=
  perform w.Ls (fun r => Event.op .Ls (.names r.1) r.2)

/-- The call `r.Mkdir(..)` on the session, logged with its result. -/
def Mkdir (dir : String) : M σ (Option Err) :=
  perform (w.Mkdir dir) (Event.op (.Mkdir dir) .unit)

/-- The call `r.Put(..)` on the session, logged with its result. -/
def Put (dst src : String) : M σ (Option Err) :=
  perform (w.Put dst src) (Event.op (.Put dst src) .unit)

/-- The call `r.Cwd(..)` on the session, logged with its result. -/
def Cwd : M σ (String × Option Err) :=
  perform w.Cwd (fun r => Event.op .Cwd (.path r.1) r.2)

/-- The call `r.SoftReboot(..)` on the session, logged with its result. -/
def SoftReboot : M σ (Option Err) := perform w.SoftReboot (Event.op .SoftReboot .unit)

/-- The call `r.Rm(..)` on the session, logged with its result. -/
def Rm (file : String) : M σ (Option Err) :=
  perform (w.Rm file) (Event.op (.Rm file) .unit)

/-- The call `r.Rmdir(..)` on the session, logged with its result. -/
def Rmdir (dir : String) : M σ (Option Err) :=
  perform (w.Rmdir dir) (Event.op (.Rmdir dir) .unit)

/-- The call `r.Upload(..)` on the session, logged with its result. -/
def Upload : M σ (Option Err) := perform w.Upload (Event.op .Upload .unit)

/-- The call `console.Current()`: `false` when no standard stream is a console, where it panics. -/
def ConsoleCurrent : M σ Bool := perform w.consoleCurrent Event.consoleCurrent

/-- The call `current.SetRaw()`. -/
def SetRaw : M σ (Option Err) := perform w.SetRaw Event.setRaw

/-- The call `current.Reset()`. -/
def Reset : M σ (Option Err) := perform w.Reset Event.reset

/-- The call `src.Read(buf)`. -/
def Read (src : Stream) : M σ ReadResult := perform (w.Read src) (Event.read src)

/-- The call `dst.Write(buf[0:nr])`. -/
def Write (dst : Stream) (data : List Nat) : M σ WriteResult :=
  perform (w.Write dst data) (Event.write dst data)

/-- The scheduler decides which goroutine runs next (`true`: the spawned one).
Not an action of the handler, so it is not logged. -/
def pickSpawned : M σ Bool :=
  fun st => let r := w.schedule st.world; (r.1, ⟨r.2, st.trace⟩)

/-- The call `fmt.Print(s)` with a single string operand. -/
def Print (s : String) : M σ Unit := emit (Event.print s)

/-- The call `fmt.Println(s)` with a single string operand. -/
def Println (s : String) : M σ Unit := emit (Event.print (s ++ "\n"))

end calls

/-! ## The filesystem command handlers

`defer r.ExitRawMode()` runs after the returned expression has been evaluated, on
every return path that follows it; its own result is discarded. -/

section handlers
variable {σ : Type} (w : Repl σ)

/-- Handler `cmdCat` (`main.go`, lines 138 to 149). -/
def cmdCat (ctx : Context) : M σ (Option Err) := do
  match ← Connect w (ctx.String "device") (ctx.Int "baudrate") with
  | some err => return some err
  | none =>
  match ← EnterRawMode w with
  | some err => return some err
  | none =>
  let ret ← Cat w Stream.Stdout (ctx.Args.Get 0)
  let _ ← ExitRawMode w
  return ret

/-- Handler `cmdCd` (`main.go`, lines 151 to 162). -/
def cmdCd (ctx : Context) : M σ (Option Err) := do
  match ← Connect w (ctx.String "device") (ctx.Int "baudrate") with
  | some err => return some err
  | none =>
  match ← EnterRawMode w with
  | some err => return some err
  | none =>
  let ret ← Cd w (ctx.Args.Get 0)
  let _ ← ExitRawMode w
  return ret

/-- Handler `cmdDownload` (`main.go`, lines 164 to 175). -/
def cmdDownload (ctx : Context) : M σ (Option Err) := do
  match ← Connect w (ctx.String "device") (ctx.Int "baudrate") with
  | some err => return some err
  | none =>
  match ← EnterRawMode w with
  | some err => return some err
  | none =>
  let ret ← Download w
  let _ ← ExitRawMode w
  return ret

/-- Handler `cmdGet` (`main.go`, lines 177 to 194). -/
def cmdGet (ctx : Context) : M σ (Option Err) := do
  match ← Connect w (ctx.String "device") (ctx.Int "baudrate") with
  | some err => return some err
  | none =>
  match ← EnterRawMode w with
  | some err => return some err
  | none =>
  let args := ctx.Args
  let dst := args.Get 0
  let src := if args.Len > 1 then args.Get 1 else dst
  let ret ← Get w dst src
  let _ ← ExitRawMode w
  return ret

/-- Handler `cmdLs` (`main.go`, lines 206 to 225). -/
def cmdLs (ctx : Context) : M σ (Option Err) := do
  match ← Connect w (ctx.String "device") (ctx.Int "baudrate") with
  | some err => return some err
  | none =>
  match ← EnterRawMode w with
  | some err => return some err
  | none =>
  match ← Ls w with
  | (_, some err) =>
    let _ ← ExitRawMode w
    return some err
  | (fs, none) =>
    fs.forM (fun f => Print (f ++ "  "))
    Print "\n"
    let _ ← ExitRawMode w
    return none

/-- Handler `cmdMkdir` (`main.go`, lines 227 to 238). -/
def cmdMkdir (ctx : Context) : M σ (Option Err) := do
  match ← Connect w (ctx.String "device") (ctx.Int "baudrate") with
  | some err => return some err
  | none =>
  match ← EnterRawMode w with
  | some err => return some err
  | none =>
  let ret ← Mkdir w (ctx.Args.Get 0)
  let _ ← ExitRawMode w
  return ret

/-- Handler `cmdPut` (`main.go`, lines 240 to 257). -/
def cmdPut (ctx : Context) : M σ (Option Err) := do
  match ← Connect w (ctx.String "device") (ctx.Int "baudrate") with
  | some err => return some err
  | none =>
  match ← EnterRawMode w with
  | some err => return some err
  | none =>
  let args := ctx.Args
  let dst := args.Get 0
  let src := if args.Len > 1 then args.Get 1 else dst
  let ret ← Put w dst src
  let _ ← ExitRawMode w
  return ret

/-- Handler `cmdPwd` (`main.go`, lines 259 to 275). -/
def cmdPwd (ctx : Context) : M σ (Option Err) := do
  match ← Connect w (ctx.String "device") (ctx.Int "baudrate") with
  | some err => return some err
  | none =>
  match ← EnterRawMode w with
  | some err => return some err
  | none =>
  match ← Cwd w with
  | (_, some err) =>
    let _ ← ExitRawMode w
    return some err
  | (cwd, none) =>
    Println cwd
    let _ ← ExitRawMode w
    return none

/-- Handler `cmdReboot` (`main.go`, lines 277 to 288). -/
def cmdReboot (ctx : Context) : M σ (Option Err) := do
  match ← Connect w (ctx.String "device") (ctx.Int "baudrate") with
  | some err => return some err
  | none =>
  match ← EnterRawMode w with
  | some err => return some err
  | none =>
  let ret ← SoftReboot w
  let _ ← ExitRawMode w
  return ret

/-- Handler `cmdRm` (`main.go`, lines 306 to 317). -/
def cmdRm (ctx : Context) : M σ (Option Err) := do
  match ← Connect w (ctx.String "device") (ctx.Int "baudrate") with
  | some err => return some err
  | none =>
  match ← EnterRawMode w with
  | some err => return some err
  | none =>
  let ret ← Rm w (ctx.Args.Get 0)
  let _ ← ExitRawMode w
  return ret

/-- Handler `cmdRmdir` (`main.go`, lines 319 to 330). -/
def cmdRmdir (ctx : Context) : M σ (Option Err) := do
  match ← Connect w (ctx.String "device") (ctx.Int "baudrate") with
  | some err => return some err
  | none =>
  match ← EnterRawMode w with
  | some err => return some err
  | none =>
  let ret ← Rmdir w (ctx.Args.Get 0)
  let _ ← ExitRawMode w
  return ret

/-- Handler `cmdUpload` (`main.go`, lines 332 to 343). -/
def cmdUpload (ctx : Context) : M σ (Option Err) := do
  match ← Connect w (ctx.String "device") (ctx.Int "baudrate") with
  | some err => return some err
  | none =>
  match ← EnterRawMode w with
  | some err => return some err
  | none =>
  let ret ← Upload w
  let _ ← ExitRawMode w
  return ret

end handlers

/-! ## Interactive passthrough

`io.Copy` is the loop of the Go standard library; one pass reads once and, when
bytes were read, writes them once.  The two copies of `cmdRepl` run as two
goroutines; they are interleaved here at the granularity of one loop pass. -/

section passthrough
variable {σ : Type} (w : Repl σ)

/-- One pass through the loop of `io.Copy(dst, src)`.  `none`: the loop goes on;
`some err`: `io.Copy` returns with `err`. -/
def copyPass (dst src : Stream) : M σ (Option (Option Err)) := do
  let r ← Read w src
  let nr : Int := r.data.length
  if nr > 0 then
    let wr ← Write w dst r.data
    let invalid : Bool := wr.nw < 0 || nr < wr.nw
    let nw : Int := if invalid then 0 else wr.nw
    let ew : Option Err :=
      if invalid && wr.err.isNone then some "invalid write result" else wr.err
    match ew with
    | some e => return some (some e)
    | none =>
    if nr ≠ nw then return some (some "short write")
    else
    match r.err with
    | some .EOF => return some none
    | some (.other e) => return some (some e)
    | none => return none
  else
    match r.err with
    | some .EOF => return some none
    | some (.other e) => return some (some e)
    | none => return none

/-- The two copies after `go io.Copy(os.Stdout, r.Port)` has been issued, for at most
`fuel` loop passes.  `spawnedDone` says whether the spawned copy has returned.  The
result is `true` as soon as `io.Copy(r.Port, os.Stdin)`, the call the handler itself
blocks in, has returned, and `false` when it has not within `fuel` passes.  Nothing
waits for the spawned copy, and the results of both copies are discarded. -/
def copyBoth : (fuel : Nat) → (spawnedDone : Bool) → M σ Bool
  | 0, _ => pure false
  | fuel + 1, spawnedDone => do
    let spawned ← pickSpawned w
    if spawned && !spawnedDone then
      let r ← copyPass w Stream.Stdout Stream.Port
      copyBoth fuel r.isSome
    else
      match ← copyPass w Stream.Port Stream.Stdin with
      | some _ => return true
      | none => copyBoth fuel spawnedDone

/-- How a handler run ends. -/
inductive Outcome
  | returned (err : Option Err)
  | panicked
  | running
  deriving DecidableEq, Repr

/-- Handler `cmdRepl` (`main.go`, lines 290 to 304).  The deferred `current.Reset()` is registered before
`SetRaw` and so also runs when `SetRaw` fails.  `fuel` bounds the number of copy passes
observed; `Outcome.running` says the handler has not returned within them. -/
def cmdRepl (ctx : Context) (fuel : Nat) : M σ Outcome := do
  match ← Connect w (ctx.String "device") (ctx.Int "baudrate") with
  | some err => return .returned (some err)
  | none =>
  if !(← ConsoleCurrent w) then return .panicked
  else
  match ← SetRaw w with
  | some err =>
    let _ ← Reset w
    return .returned (some err)
  | none =>
  emit (Event.go Stream.Stdout Stream.Port)
  if ← copyBoth w fuel false then
    let _ ← Reset w
    return .returned none
  else return .running

end passthrough

/-- The twelve filesystem commands of the command table in `main`. -/
inductive FsCommand
  | cat | cd | download | get | ls | mkdir | put | pwd | reboot | rm | rmdir | upload
  deriving DecidableEq, Repr

/-- The `Action` field of each filesystem command in the command table. -/
def FsCommand.Action {σ : Type} (c : FsCommand) (w : Repl σ) (ctx : Context) :
    M σ (Option Err) :=
  match c with
  | .cat => cmdCat w ctx
  | .cd => cmdCd w ctx
  | .download => cmdDownload w ctx
  | .get => cmdGet w ctx
  | .ls => cmdLs w ctx
  | .mkdir => cmdMkdir w ctx
  | .put => cmdPut w ctx
  | .pwd => cmdPwd w ctx
  | .reboot => cmdReboot w ctx
  | .rm => cmdRm w ctx
  | .rmdir => cmdRmdir w ctx
  | .upload => cmdUpload w ctx

/-- Run a handler from collaborator state `s` with an empty trace. -/
def exec {σ α : Type} (m : M σ α) (s : σ) : α × Run σ := m ⟨s, []⟩

/-- The session operation each filesystem command performs, with its arguments. -/
def FsCommand.call (c : FsCommand) (ctx : Context) : Call :=
  match c with
  | .cat => .Cat .Stdout (ctx.Args.Get 0)
  | .cd => .Cd (ctx.Args.Get 0)
  | .download => .Download
  | .get => .Get (ctx.Args.Get 0) (if ctx.Args.Len > 1 then ctx.Args.Get 1 else ctx.Args.Get 0)
  | .ls => .Ls
  | .mkdir => .Mkdir (ctx.Args.Get 0)
  | .put => .Put (ctx.Args.Get 0) (if ctx.Args.Len > 1 then ctx.Args.Get 1 else ctx.Args.Get 0)
  | .pwd => .Cwd
  | .reboot => .SoftReboot
  | .rm => .Rm (ctx.Args.Get 0)
  | .rmdir => .Rmdir (ctx.Args.Get 0)
  | .upload => .Upload

/-- What a filesystem command prints after its operation returned `(v, err)`. -/
def FsCommand.prints (c : FsCommand) (v : Value) (err : Option Err) : List Event :=
  match c, v, err with
  | .ls, .names fs, none => fs.map (fun f => Event.print (f ++ "  ")) ++ [Event.print "\n"]
  | .pwd, .path cwd, none => [Event.print (cwd ++ "\n")]
  | _, _, _ => []

/-- Session operations among the events. -/
def Event.isOp : Event → Bool
  | .op _ _ _ => true
  | _ => false

/-- The text the handler itself wrote to standard output, in order. -/
def stdout : List Event → String
  | [] => ""
  | .print s :: rest => s ++ stdout rest
  | _ :: rest => stdout rest

/-- A session and console whose calls all give fixed results; every read reports
that its stream is at end-of-stream. -/
def fixedRepl (connectErr enterErr opErr : Option Err) (fs : List String) (cwd : String) :
    Repl Unit where
  Connect := fun _ _ s => (connectErr, s)
  EnterRawMode := fun s => (enterErr, s)
  ExitRawMode := fun s => (none, s)
  Cat := fun _ _ s => (opErr, s)
  Cd := fun _ s => (opErr, s)
  Download := fun s => (opErr, s)
  Get := fun _ _ s => (opErr, s)
  Ls := fun s => ((fs, opErr), s)
  Mkdir := fun _ s => (opErr, s)
  Put := fun _ _ s => (opErr, s)
  Cwd := fun s => ((cwd, opErr), s)
  SoftReboot := fun s => (opErr, s)
  Rm := fun _ s => (opErr, s)
  Rmdir := fun _ s => (opErr, s)
  Upload := fun s => (opErr, s)
  consoleCurrent := fun s => (true, s)
  SetRaw := fun s => (none, s)
  Reset := fun s => (none, s)
  Read := fun _ s => (⟨[], some .EOF⟩, s)
  Write := fun _ data s => (⟨data.length, none⟩, s)
  schedule := fun s => (false, s)

/-- A device whose link is already at end-of-stream while the console keeps delivering
one byte per read; the scheduler prefers the spawned goroutine. -/
def linkClosedRepl : Repl Unit where
  Connect := fun _ _ s => (none, s)
  EnterRawMode := fun s => (none, s)
  ExitRawMode := fun s => (none, s)
  Cat := fun _ _ s => (none, s)
  Cd := fun _ s => (none, s)
  Download := fun s => (none, s)
  Get := fun _ _ s => (none, s)
  Ls := fun s => (([], none), s)
  Mkdir := fun _ s => (none, s)
  Put := fun _ _ s => (none, s)
  Cwd := fun s => (("/", none), s)
  SoftReboot := fun s => (none, s)
  Rm := fun _ s => (none, s)
  Rmdir := fun _ s => (none, s)
  Upload := fun s => (none, s)
  consoleCurrent := fun s => (true, s)
  SetRaw := fun s => (none, s)
  Reset := fun s => (none, s)
  Read := fun src s =>
    match src with
    | .Stdin => (⟨[120], none⟩, s)
    | _ => (⟨[], some .EOF⟩, s)
  Write := fun _ data s => (⟨data.length, none⟩, s)
  schedule := fun s => (true, s)

/-- A context with the given positional arguments. -/
def ctxOf (args : List String) : Context where
  strings := fun _ => "/dev/ttyUSB0"
  ints := fun _ => 115200
  args := args

/-- Calls on the session other than `Connect`. -/
def Event.isSession : Event → Bool
  | .enterRawMode _ => true
  | .exitRawMode _ => true
  | .op _ _ _ => true
  | _ => false

/-- The events of one pass of `io.Copy(dst, src)`: one read from `src`, followed, when
it happens, by one write to `dst` of exactly the bytes just read. -/
inductive Pass (dst src : Stream) : List Event → Prop
  | read (r : ReadResult) : Pass dst src [Event.read src r]
  | readWrite (r : ReadResult) (wr : WriteResult) :
      Pass dst src [Event.read src r, Event.write dst r.data wr]

/-- An interleaving of passes of the two copies of `cmdRepl`: link to console output
and console input to link. -/
inductive Spliced : List Event → Prop
  | done : Spliced []
  | toConsole {p rest : List Event} :
      Pass Stream.Stdout Stream.Port p → Spliced rest → Spliced (p ++ rest)
  | toLink {p rest : List Event} :
      Pass Stream.Port Stream.Stdin p → Spliced rest → Spliced (p ++ rest)

/-- The calls on the console: `console.Current()`, `SetRaw`, `Reset`. -/
def Event.isConsole : Event → Bool
  | .consoleCurrent _ => true
  | .setRaw _ => true
  | .reset _ => true
  | _ => false

/-- An event by which the spawned copy `io.Copy(os.Stdout, r.Port)` returns: a read
from the link that reports an error (end-of-stream included), or a write to the console
output that fails or is short. -/
def Event.endsSpawned : Event → Bool
  | .read .Port r => r.err.isSome
  | .write .Stdout data wr => wr.err.isSome || decide (wr.nw ≠ (data.length : Int))
  | _ => false

/-- An event by which the copy the handler itself runs, `io.Copy(r.Port, os.Stdin)`,
returns: a read from the console input that reports an error (end-of-stream included),
or a write to the link that fails or is short. -/
def Event.endsHandler : Event → Bool
  | .read .Stdin r => r.err.isSome
  | .write .Port data wr => wr.err.isSome || decide (wr.nw ≠ (data.length : Int))
  | _ => false

/-- Whether the spawned copy has returned, read off the trace. -/
def spawnedEnded (tr : List Event) : Bool := tr.any Event.endsSpawned

/-- Whether the copy the handler itself runs has returned, read off the trace. -/
def handlerEnded (tr : List Event) : Bool := tr.any Event.endsHandler

/-- The run state once the scheduler has been asked which goroutine runs next. -/
def scheduled {σ : Type} (w : Repl σ) (st : Run σ) : Run σ :=
  ⟨(w.schedule st.world).2, st.trace⟩

/-- A device that answers every link read with two bytes and whose console delivers one
byte per read until the scheduler has been asked four times, then end-of-stream.  The
state counts the scheduler's decisions; it alternates, spawned goroutine first. -/
def chatRepl : Repl Nat where
  Connect := fun _ _ s => (none, s)
  EnterRawMode := fun s => (none, s)
  ExitRawMode := fun s => (none, s)
  Cat := fun _ _ s => (none, s)
  Cd := fun _ s => (none, s)
  Download := fun s => (none, s)
  Get := fun _ _ s => (none, s)
  Ls := fun s => (([], none), s)
  Mkdir := fun _ s => (none, s)
  Put := fun _ _ s => (none, s)
  Cwd := fun s => (("/", none), s)
  SoftReboot := fun s => (none, s)
  Rm := fun _ s => (none, s)
  Rmdir := fun _ s => (none, s)
  Upload := fun s => (none, s)
  consoleCurrent := fun s => (true, s)
  SetRaw := fun s => (none, s)
  Reset := fun s => (none, s)
  Read := fun src s =>
    match src with
    | .Stdin => if s < 4 then (⟨[120], none⟩, s) else (⟨[], some .EOF⟩, s)
    | _ => (⟨[79, 75], none⟩, s)
  Write := fun _ data s => (⟨data.length, none⟩, s)
  schedule := fun s => (s % 2 == 0, s + 1)

theorem forM_Print {σ : Type} (g : String → String) (fs : List String) (st : Run σ) :
    (fs.forM (fun f => (emit (Event.print (g f)) : M σ Unit))) st
      = ((), ⟨st.world, st.trace ++ fs.map (fun f => Event.print (g f))⟩) := by
  induction fs generalizing st with
  | nil => simp [List.forM, pure, StateT.pure]
  | cons f fs ih =>
    have h1 : (emit (Event.print (g f)) : M σ Unit) st
        = ((), ⟨st.world, st.trace ++ [Event.print (g f)]⟩) := rfl
    simp only [List.forM, bind, StateT.bind, h1, ih]
    simp

/-- A run in which `Connect` fails. -/
theorem Action_connect_failed {σ : Type} (c : FsCommand) (w : Repl σ) (ctx : Context)
    (s s1 : σ) (e : Err)
    (hc : w.Connect (ctx.String "device") (ctx.Int "baudrate") s = (some e, s1)) :
    exec (c.Action w ctx) s
      = (some e, ⟨s1, [.connect (ctx.String "device") (ctx.Int "baudrate") (some e)]⟩) := by
  cases c <;>
  simp [FsCommand.Action, cmdCat, cmdCd, cmdDownload, cmdGet, cmdLs, cmdMkdir, cmdPut,
    cmdPwd, cmdReboot, cmdRm, cmdRmdir, cmdUpload, exec, bind, StateT.bind, pure, StateT.pure,
    Connect, perform, hc]

/-- A run in which `Connect` succeeds and `EnterRawMode` fails. -/
theorem Action_enter_failed {σ : Type} (c : FsCommand) (w : Repl σ) (ctx : Context)
    (s s1 s2 : σ) (e : Err)
    (hc : w.Connect (ctx.String "device") (ctx.Int "baudrate") s = (none, s1))
    (he : w.EnterRawMode s1 = (some e, s2)) :
    exec (c.Action w ctx) s
      = (some e, ⟨s2, [.connect (ctx.String "device") (ctx.Int "baudrate") none,
                       .enterRawMode (some e)]⟩) := by
  cases c <;>
  simp [FsCommand.Action, cmdCat, cmdCd, cmdDownload, cmdGet, cmdLs, cmdMkdir, cmdPut,
    cmdPwd, cmdReboot, cmdRm, cmdRmdir, cmdUpload, exec, bind, StateT.bind, pure, StateT.pure,
    Connect, EnterRawMode, perform, hc, he]

/-- A run in which `Connect` and `EnterRawMode` both succeed. -/
theorem Action_entered {σ : Type} (c : FsCommand) (w : Repl σ) (ctx : Context)
    (s s1 s2 : σ)
    (hc : w.Connect (ctx.String "device") (ctx.Int "baudrate") s = (none, s1))
    (he : w.EnterRawMode s1 = (none, s2)) :
    ∃ v r x s3, exec (c.Action w ctx) s
      = (r, ⟨s3, [.connect (ctx.String "device") (ctx.Int "baudrate") none,
                  .enterRawMode none, .op (c.call ctx) v r]
                 ++ c.prints v r ++ [.exitRawMode x]⟩) := by
  cases c
  case ls =>
    rcases hl : w.Ls s2 with ⟨⟨fs, _ | e⟩, s3⟩
    · refine ⟨.names fs, none, (w.ExitRawMode s3).1, (w.ExitRawMode s3).2, ?_⟩
      simp [FsCommand.Action, cmdLs, exec, bind, StateT.bind, pure, StateT.pure,
        Connect, EnterRawMode, ExitRawMode, Ls, perform, hc, he, hl, forM_Print,
        FsCommand.call, FsCommand.prints, Print, emit]
    · refine ⟨.names fs, some e, (w.ExitRawMode s3).1, (w.ExitRawMode s3).2, ?_⟩
      simp [FsCommand.Action, cmdLs, exec, bind, StateT.bind, pure, StateT.pure,
        Connect, EnterRawMode, ExitRawMode, Ls, perform, hc, he, hl,
        FsCommand.call, FsCommand.prints]
  case pwd =>
    rcases hl : w.Cwd s2 with ⟨⟨cwd, _ | e⟩, s3⟩
    · refine ⟨.path cwd, none, (w.ExitRawMode s3).1, (w.ExitRawMode s3).2, ?_⟩
      simp [FsCommand.Action, cmdPwd, exec, bind, StateT.bind, pure, StateT.pure,
        Connect, EnterRawMode, ExitRawMode, Cwd, perform, hc, he, hl,
        FsCommand.call, FsCommand.prints, Println, emit]
    · refine ⟨.path cwd, some e, (w.ExitRawMode s3).1, (w.ExitRawMode s3).2, ?_⟩
      simp [FsCommand.Action, cmdPwd, exec, bind, StateT.bind, pure, StateT.pure,
        Connect, EnterRawMode, ExitRawMode, Cwd, perform, hc, he, hl,
        FsCommand.call, FsCommand.prints]
  all_goals
    simp [FsCommand.Action, cmdCat, cmdCd, cmdDownload, cmdGet, cmdMkdir, cmdPut,
      cmdReboot, cmdRm, cmdRmdir, cmdUpload, exec, bind, StateT.bind, pure, StateT.pure,
      Connect, EnterRawMode, ExitRawMode, Cat, Cd, Download, Get, Mkdir, Put, SoftReboot,
      Rm, Rmdir, Upload, perform, hc, he, FsCommand.call, FsCommand.prints]

theorem mem_prints {c : FsCommand} {v : Value} {r : Option Err} {ev : Event}
    (h : ev ∈ c.prints v r) : ∃ str, ev = .print str := by
  unfold FsCommand.prints at h
  split at h
  · simp only [List.mem_append, List.mem_map, List.mem_singleton] at h
    rcases h with ⟨f, _, hf⟩ | h
    · exact ⟨_, hf.symm⟩
    · exact ⟨_, h⟩
  · simp only [List.mem_singleton] at h
    exact ⟨_, h⟩
  · simp at h

/-- Every run of a filesystem command has one of three shapes. -/
theorem Action_cases {σ : Type} (c : FsCommand) (w : Repl σ) (ctx : Context) (s : σ) :
    (∃ e, (exec (c.Action w ctx) s).1 = some e ∧ (exec (c.Action w ctx) s).2.trace
        = [.connect (ctx.String "device") (ctx.Int "baudrate") (some e)]) ∨
    (∃ e, (exec (c.Action w ctx) s).1 = some e ∧ (exec (c.Action w ctx) s).2.trace
        = [.connect (ctx.String "device") (ctx.Int "baudrate") none, .enterRawMode (some e)]) ∨
    (∃ v r x, (exec (c.Action w ctx) s).1 = r ∧ (exec (c.Action w ctx) s).2.trace
        = [.connect (ctx.String "device") (ctx.Int "baudrate") none,
           .enterRawMode none, .op (c.call ctx) v r] ++ c.prints v r ++ [.exitRawMode x]) := by
  rcases hc : w.Connect (ctx.String "device") (ctx.Int "baudrate") s with ⟨_ | e, s1⟩
  · rcases he : w.EnterRawMode s1 with ⟨_ | e, s2⟩
    · obtain ⟨v, r, x, s3, h⟩ := Action_entered c w ctx s s1 s2 hc he
      exact Or.inr (Or.inr ⟨v, r, x, by rw [h], by rw [h]⟩)
    · have h := Action_enter_failed c w ctx s s1 s2 e hc he
      exact Or.inr (Or.inl ⟨e, by rw [h], by rw [h]⟩)
  · have h := Action_connect_failed c w ctx s s1 e hc
    exact Or.inl ⟨e, by rw [h], by rw [h]⟩

/-- A trace `[a, b, o] ++ mid ++ [x]` whose only operation is `o` splits at an operation
in one way only. -/
theorem split_at_op {a b o x ev : Event} {mid pre post : List Event}
    (ha : a.isOp = false) (hb : b.isOp = false) (hmid : ∀ e ∈ mid, e.isOp = false)
    (hx : x.isOp = false) (hev : ev.isOp = true)
    (h : [a, b, o] ++ mid ++ [x] = pre ++ ev :: post) :
    pre = [a, b] ∧ ev = o ∧ post = mid ++ [x] := by
  rcases pre with _ | ⟨p1, _ | ⟨p2, _ | ⟨p3, pre⟩⟩⟩
  · simp at h
    rw [← h.1, ha] at hev
    simp at hev
  · simp at h
    rw [← h.2.1, hb] at hev
    simp at hev
  · simp at h
    obtain ⟨h1, h2, h3, h4⟩ := h
    subst h1 h2 h3
    exact ⟨rfl, rfl, h4.symm⟩
  · simp at h
    have hm : ev ∈ mid ++ [x] := by
      rw [h.2.2.2]
      simp
    rcases List.mem_append.1 hm with hm | hm
    · rw [hmid ev hm] at hev
      simp at hev
    · rw [List.mem_singleton.1 hm, hx] at hev
      simp at hev

theorem isOp_prints {c : FsCommand} {v : Value} {r : Option Err} :
    ∀ e ∈ c.prints v r, e.isOp = false := by
  intro e he
  obtain ⟨str, rfl⟩ := mem_prints he
  rfl

/-- A run of `cmdRepl` in which `Connect` fails. -/
theorem cmdRepl_connect_failed {σ : Type} (w : Repl σ) (ctx : Context) (fuel : Nat)
    (s s1 : σ) (e : Err)
    (hc : w.Connect (ctx.String "device") (ctx.Int "baudrate") s = (some e, s1)) :
    exec (cmdRepl w ctx fuel) s
      = (.returned (some e),
         ⟨s1, [.connect (ctx.String "device") (ctx.Int "baudrate") (some e)]⟩) := by
  simp [cmdRepl, exec, bind, StateT.bind, pure, StateT.pure, Connect, perform, hc]

/-- A run of `cmdLs` in which `Connect` and `EnterRawMode` both succeed. -/
theorem cmdLs_entered {σ : Type} (w : Repl σ) (ctx : Context) (s s1 s2 s3 : σ)
    (fs : List String) (r : Option Err)
    (hc : w.Connect (ctx.String "device") (ctx.Int "baudrate") s = (none, s1))
    (he : w.EnterRawMode s1 = (none, s2)) (hl : w.Ls s2 = ((fs, r), s3)) :
    exec (cmdLs w ctx) s
      = (r, ⟨(w.ExitRawMode s3).2,
          [.connect (ctx.String "device") (ctx.Int "baudrate") none,
           .enterRawMode none, .op .Ls (.names fs) r]
          ++ FsCommand.ls.prints (.names fs) r ++ [.exitRawMode (w.ExitRawMode s3).1]⟩) := by
  cases r <;>
  simp [cmdLs, exec, bind, StateT.bind, pure, StateT.pure,
    Connect, EnterRawMode, ExitRawMode, Ls, perform, hc, he, hl, forM_Print,
    FsCommand.prints, Print, emit]

/-- A run of `cmdPwd` in which `Connect` and `EnterRawMode` both succeed. -/
theorem cmdPwd_entered {σ : Type} (w : Repl σ) (ctx : Context) (s s1 s2 s3 : σ)
    (cwd : String) (r : Option Err)
    (hc : w.Connect (ctx.String "device") (ctx.Int "baudrate") s = (none, s1))
    (he : w.EnterRawMode s1 = (none, s2)) (hl : w.Cwd s2 = ((cwd, r), s3)) :
    exec (cmdPwd w ctx) s
      = (r, ⟨(w.ExitRawMode s3).2,
          [.connect (ctx.String "device") (ctx.Int "baudrate") none,
           .enterRawMode none, .op .Cwd (.path cwd) r]
          ++ FsCommand.pwd.prints (.path cwd) r ++ [.exitRawMode (w.ExitRawMode s3).1]⟩) := by
  cases r <;>
  simp [cmdPwd, exec, bind, StateT.bind, pure, StateT.pure,
    Connect, EnterRawMode, ExitRawMode, Cwd, perform, hc, he, hl,
    FsCommand.prints, Println, emit]

theorem join_cons (a : String) (l : List String) :
    String.join (a :: l) = a ++ String.join l := by
  apply String.ext
  simp [String.data_join]

theorem stdout_append (l1 l2 : List Event) : stdout (l1 ++ l2) = stdout l1 ++ stdout l2 := by
  induction l1 with
  | nil => simp [stdout]
  | cons e l1 ih => cases e <;> simp [stdout, ih, String.append_assoc]

theorem stdout_prints (g : String → String) (fs : List String) :
    stdout (fs.map (fun f => Event.print (g f))) = String.join (fs.map g) := by
  induction fs with
  | nil => rfl
  | cons f fs ih => simp [stdout, ih, join_cons]

theorem stdout_of_no_print (l : List Event) (h : ∀ str, Event.print str ∉ l) :
    stdout l = "" := by
  induction l with
  | nil => rfl
  | cons e l ih =>
    have hl : ∀ str, Event.print str ∉ l := fun str hm => h str (List.mem_cons_of_mem _ hm)
    cases e <;> simp [stdout, ih hl]
    exact absurd (List.mem_cons_self _ _) (h _)

/-- What one pass of `io.Copy(dst, src)` adds to the trace, and when it ends the copy. -/
theorem copyPass_spec {σ : Type} (w : Repl σ) (dst src : Stream) (st : Run σ) :
    ((copyPass w dst src st).2.trace = st.trace ++ [Event.read src (w.Read src st.world).1] ∨
      (copyPass w dst src st).2.trace
        = st.trace ++ [Event.read src (w.Read src st.world).1,
            Event.write dst (w.Read src st.world).1.data
              (w.Write dst (w.Read src st.world).1.data (w.Read src st.world).2).1]) ∧
    ((w.Read src st.world).1.err ≠ none → (copyPass w dst src st).1.isSome = true) := by
  simp only [copyPass, bind, StateT.bind, Read, Write, perform, pure, StateT.pure]
  generalize w.Read src st.world = rr
  obtain ⟨⟨data, err⟩, s1⟩ := rr
  by_cases hpos : ((data.length : Int) > 0)
  · simp only [hpos, if_true, StateT.bind, perform]
    generalize w.Write dst data s1 = ww
    obtain ⟨⟨nw, ew⟩, s2⟩ := ww
    rcases err with _ | _ | e <;> rcases ew with _ | e2 <;>
      simp only [Id.bind_eq, Bool.or_eq_true, Bool.and_eq_true, decide_eq_true_eq,
        Option.isNone_none, Option.isNone_some, and_true, and_false, if_false,
        Bool.false_eq_true] <;>
      (try split_ifs) <;> simp [StateT.pure]
  · simp only [hpos, if_false]
    rcases err with _ | _ | e <;> simp [StateT.pure]

/-- What one pass of `io.Copy(dst, src)` adds to the trace, exactly, and exactly when it
ends the copy: on a read error, or on a write that failed or was short. -/
theorem copyPass_exact {σ : Type} (w : Repl σ) (dst src : Stream) (st : Run σ) :
    (copyPass w dst src st).2.trace
      = st.trace ++
        (if 0 < (w.Read src st.world).1.data.length then
          [Event.read src (w.Read src st.world).1,
           Event.write dst (w.Read src st.world).1.data
            (w.Write dst (w.Read src st.world).1.data (w.Read src st.world).2).1]
         else [Event.read src (w.Read src st.world).1]) ∧
    (copyPass w dst src st).1.isSome
      = ((w.Read src st.world).1.err.isSome ||
          (decide (0 < (w.Read src st.world).1.data.length) &&
            ((w.Write dst (w.Read src st.world).1.data (w.Read src st.world).2).1.err.isSome ||
              decide ((w.Write dst (w.Read src st.world).1.data (w.Read src st.world).2).1.nw
                ≠ ((w.Read src st.world).1.data.length : Int))))) := by
  simp only [copyPass, bind, StateT.bind, Read, Write, perform, pure, StateT.pure]
  generalize w.Read src st.world = rr
  obtain ⟨⟨data, err⟩, s1⟩ := rr
  by_cases hpos : ((data.length : Int) > 0)
  · have hlen : 0 < data.length := by omega
    simp only [hpos, if_true, StateT.bind, perform, hlen]
    generalize w.Write dst data s1 = ww
    obtain ⟨⟨nw, ew⟩, s2⟩ := ww
    rcases err with _ | _ | e <;> rcases ew with _ | e2 <;>
      simp only [Id.bind_eq, Bool.or_eq_true, Bool.and_eq_true, decide_eq_true_eq,
        Option.isNone_none, Option.isNone_some, and_true, and_false, if_false,
        Bool.false_eq_true] <;>
      (try split_ifs) <;> simp [StateT.pure] <;> omega
  · have hlen : ¬ 0 < data.length := by omega
    simp only [hpos, if_false, hlen]
    rcases err with _ | _ | e <;> simp [StateT.pure]

/-- One step of the interleaving, spelled out on the run state. -/
theorem copyBoth_succ {σ : Type} (w : Repl σ) (n : Nat) (b : Bool) (st : Run σ) :
    copyBoth w (n + 1) b st =
      if ((w.schedule st.world).1 && !b) = true then
        copyBoth w n
          (copyPass w Stream.Stdout Stream.Port ⟨(w.schedule st.world).2, st.trace⟩).1.isSome
          (copyPass w Stream.Stdout Stream.Port ⟨(w.schedule st.world).2, st.trace⟩).2
      else
        match (copyPass w Stream.Port Stream.Stdin ⟨(w.schedule st.world).2, st.trace⟩).1 with
        | some _ =>
          (true, (copyPass w Stream.Port Stream.Stdin ⟨(w.schedule st.world).2, st.trace⟩).2)
        | none =>
          copyBoth w n b
            (copyPass w Stream.Port Stream.Stdin ⟨(w.schedule st.world).2, st.trace⟩).2 := by
  by_cases h : ((w.schedule st.world).1 && !b) = true
  · simp only [copyBoth, bind, StateT.bind, pickSpawned, h, if_true]
    rfl
  · simp only [copyBoth, bind, StateT.bind, pickSpawned, h, if_false]
    rcases hp : copyPass w Stream.Port Stream.Stdin ⟨(w.schedule st.world).2, st.trace⟩
      with ⟨_ | r, st2⟩
    · simp [StateT.bind, hp]
    · simp [StateT.bind, hp, pure, StateT.pure]

theorem copyPass_pass {σ : Type} (w : Repl σ) (dst src : Stream) (st : Run σ) :
    ∃ p, Pass dst src p ∧ (copyPass w dst src st).2.trace = st.trace ++ p ∧
      (∀ r, Event.read src r ∈ p → r.err ≠ none → (copyPass w dst src st).1.isSome = true) ∧
      (∀ ev ∈ p, (∃ r, ev = Event.read src r) ∨ ∃ d wr, ev = Event.write dst d wr) := by
  obtain ⟨h | h, hsome⟩ := copyPass_spec w dst src st
  · refine ⟨_, Pass.read _, h, ?_, ?_⟩
    · intro r hr hne
      rw [List.mem_singleton] at hr
      cases hr
      exact hsome hne
    · intro ev hev
      rw [List.mem_singleton] at hev
      exact Or.inl ⟨_, hev⟩
  · refine ⟨_, Pass.readWrite _ _, h, ?_, ?_⟩
    · intro r hr hne
      simp only [List.mem_cons, List.mem_singleton, List.not_mem_nil, or_false] at hr
      rcases hr with hr | hr
      · cases hr
        exact hsome hne
      · cases hr
    · intro ev hev
      simp only [List.mem_cons, List.mem_singleton, List.not_mem_nil, or_false] at hev
      rcases hev with rfl | rfl
      · exact Or.inl ⟨_, rfl⟩
      · exact Or.inr ⟨_, _, rfl⟩

/-- What the two copies add to the trace: an interleaving of passes; and once the
console-input copy has read end-of-stream, the handler's copy has returned. -/
theorem copyBoth_trace {σ : Type} (w : Repl σ) (fuel : Nat) :
    ∀ (b : Bool) (st : Run σ), ∃ copies, Spliced copies ∧
      (copyBoth w fuel b st).2.trace = st.trace ++ copies ∧
      (∀ r, Event.read Stream.Stdin r ∈ copies → r.err ≠ none →
        (copyBoth w fuel b st).1 = true) := by
  induction fuel with
  | zero =>
    intro b st
    exact ⟨[], Spliced.done, by simp [copyBoth, pure, StateT.pure], by simp⟩
  | succ n ih =>
    intro b st
    rw [copyBoth_succ]
    split
    · obtain ⟨p, hp, htr, -, hev⟩ :=
        copyPass_pass w Stream.Stdout Stream.Port ⟨(w.schedule st.world).2, st.trace⟩
      obtain ⟨copies, hc, hctr, hceof⟩ := ih
        (copyPass w Stream.Stdout Stream.Port ⟨(w.schedule st.world).2, st.trace⟩).1.isSome
        (copyPass w Stream.Stdout Stream.Port ⟨(w.schedule st.world).2, st.trace⟩).2
      refine ⟨p ++ copies, Spliced.toConsole hp hc, ?_, ?_⟩
      · rw [hctr, htr, List.append_assoc]
      · intro r hr hne
        rcases List.mem_append.1 hr with hr | hr
        · rcases hev _ hr with ⟨r2, h2⟩ | ⟨d, wr, h2⟩ <;> cases h2
        · exact hceof r hr hne
    · obtain ⟨p, hp, htr, hsome, hev⟩ :=
        copyPass_pass w Stream.Port Stream.Stdin ⟨(w.schedule st.world).2, st.trace⟩
      split
      · exact ⟨p, by simpa using Spliced.toLink hp Spliced.done, htr, fun _ _ _ => rfl⟩
      · rename_i hnone
        obtain ⟨copies, hc, hctr, hceof⟩ := ih b
          (copyPass w Stream.Port Stream.Stdin ⟨(w.schedule st.world).2, st.trace⟩).2
        refine ⟨p ++ copies, Spliced.toLink hp hc, ?_, ?_⟩
        · rw [hctr, htr, List.append_assoc]
        · intro r hr hne
          rcases List.mem_append.1 hr with hr | hr
          · have := hsome r hr hne
            rw [hnone] at this
            cases this
          · exact hceof r hr hne

/-- Every run of `cmdRepl` has one of five shapes. -/
theorem cmdRepl_cases {σ : Type} (w : Repl σ) (ctx : Context) (fuel : Nat) (s : σ) :
    (∃ e, (exec (cmdRepl w ctx fuel) s).1 = Outcome.returned (some e) ∧
      (exec (cmdRepl w ctx fuel) s).2.trace
        = [Event.connect (ctx.String "device") (ctx.Int "baudrate") (some e)]) ∨
    ((exec (cmdRepl w ctx fuel) s).1 = Outcome.panicked ∧
      (exec (cmdRepl w ctx fuel) s).2.trace
        = [Event.connect (ctx.String "device") (ctx.Int "baudrate") none,
           Event.consoleCurrent false]) ∨
    (∃ e x, (exec (cmdRepl w ctx fuel) s).1 = Outcome.returned (some e) ∧
      (exec (cmdRepl w ctx fuel) s).2.trace
        = [Event.connect (ctx.String "device") (ctx.Int "baudrate") none,
           Event.consoleCurrent true, Event.setRaw (some e), Event.reset x]) ∨
    (∃ copies, Spliced copies ∧
      (∀ r, Event.read Stream.Stdin r ∈ copies → r.err = none) ∧
      (exec (cmdRepl w ctx fuel) s).1 = Outcome.running ∧
      (exec (cmdRepl w ctx fuel) s).2.trace
        = [Event.connect (ctx.String "device") (ctx.Int "baudrate") none,
           Event.consoleCurrent true, Event.setRaw none,
           Event.go Stream.Stdout Stream.Port] ++ copies) ∨
    (∃ copies x, Spliced copies ∧
      (exec (cmdRepl w ctx fuel) s).1 = Outcome.returned none ∧
      (exec (cmdRepl w ctx fuel) s).2.trace
        = [Event.connect (ctx.String "device") (ctx.Int "baudrate") none,
           Event.consoleCurrent true, Event.setRaw none,
           Event.go Stream.Stdout Stream.Port] ++ copies ++ [Event.reset x]) := by
  rcases hc : w.Connect (ctx.String "device") (ctx.Int "baudrate") s with ⟨_ | e, s1⟩
  swap
  · left
    exact ⟨e, by simp [cmdRepl, exec, bind, StateT.bind, pure, StateT.pure, Connect, perform, hc]⟩
  rcases hcur : w.consoleCurrent s1 with ⟨_ | _, s2⟩
  · right; left
    simp [cmdRepl, exec, bind, StateT.bind, pure, StateT.pure, Connect, ConsoleCurrent,
      perform, hc, hcur]
  rcases hraw : w.SetRaw s2 with ⟨_ | e, s3⟩
  swap
  · right; right; left
    refine ⟨e, (w.Reset s3).1, ?_⟩
    simp [cmdRepl, exec, bind, StateT.bind, pure, StateT.pure, Connect, ConsoleCurrent,
      SetRaw, Reset, perform, hc, hcur, hraw]
  right; right; right
  obtain ⟨copies, hsp, htr, heof⟩ := copyBoth_trace w fuel false
    ⟨s3, [Event.connect (ctx.String "device") (ctx.Int "baudrate") none,
          Event.consoleCurrent true, Event.setRaw none, Event.go Stream.Stdout Stream.Port]⟩
  rcases hb : copyBoth w fuel false
    ⟨s3, [Event.connect (ctx.String "device") (ctx.Int "baudrate") none,
          Event.consoleCurrent true, Event.setRaw none, Event.go Stream.Stdout Stream.Port]⟩
    with ⟨_ | _, st2⟩
  · left
    rw [hb] at htr heof
    refine ⟨copies, hsp, ?_, ?_⟩
    · intro r hr
      by_contra hne
      exact absurd (heof r hr hne) (by simp)
    · simp only [] at htr
      simp [cmdRepl, exec, bind, StateT.bind, pure, StateT.pure, Connect, ConsoleCurrent,
        SetRaw, Reset, perform, emit, hc, hcur, hraw, hb, htr]
  · right
    rw [hb] at htr
    refine ⟨copies, (w.Reset st2.world).1, hsp, ?_⟩
    simp only [] at htr
    simp [cmdRepl, exec, bind, StateT.bind, pure, StateT.pure, Connect, ConsoleCurrent,
      SetRaw, Reset, perform, emit, hc, hcur, hraw, hb, htr]

theorem Spliced_not_session {copies : List Event} (h : Spliced copies) :
    ∀ ev ∈ copies, ev.isSession = false := by
  induction h with
  | done => simp
  | toConsole hp _ ih =>
    intro ev hev
    rcases List.mem_append.1 hev with hev | hev
    · cases hp <;> simp at hev <;> rcases hev with rfl | rfl <;> rfl
    · exact ih ev hev
  | toLink hp _ ih =>
    intro ev hev
    rcases List.mem_append.1 hev with hev | hev
    · cases hp <;> simp at hev <;> rcases hev with rfl | rfl <;> rfl
    · exact ih ev hev

/-- More fuel does not change a run of the two copies that has returned. -/
theorem copyBoth_mono {σ : Type} (w : Repl σ) (k : Nat) (n : Nat) :
    ∀ (b : Bool) (st : Run σ), (copyBoth w n b st).1 = true →
      copyBoth w (n + k) b st = copyBoth w n b st := by
  induction n with
  | zero =>
    intro b st h
    simp [copyBoth, pure, StateT.pure] at h
  | succ n ih =>
    intro b st h
    rw [show n + 1 + k = (n + k) + 1 by omega, copyBoth_succ w (n + k), copyBoth_succ w n]
    rw [copyBoth_succ] at h
    split
    · rename_i hc
      rw [if_pos hc] at h
      exact ih _ _ h
    · rename_i hc
      rw [if_neg hc] at h
      split
      · rfl
      · rename_i hnone
        rw [hnone] at h
        exact ih _ _ h

/-- More fuel does not change a run of `cmdRepl` that has ended. -/
theorem cmdRepl_mono {σ : Type} (w : Repl σ) (ctx : Context) (fuel k : Nat) (s : σ)
    (h : (exec (cmdRepl w ctx fuel) s).1 ≠ Outcome.running) :
    exec (cmdRepl w ctx (fuel + k)) s = exec (cmdRepl w ctx fuel) s := by
  rcases hc : w.Connect (ctx.String "device") (ctx.Int "baudrate") s with ⟨_ | e, s1⟩
  swap
  · simp [cmdRepl, exec, bind, StateT.bind, pure, StateT.pure, Connect, perform, hc]
  rcases hcur : w.consoleCurrent s1 with ⟨_ | _, s2⟩
  · simp [cmdRepl, exec, bind, StateT.bind, pure, StateT.pure, Connect, ConsoleCurrent,
      perform, hc, hcur]
  rcases hraw : w.SetRaw s2 with ⟨_ | e, s3⟩
  swap
  · simp [cmdRepl, exec, bind, StateT.bind, pure, StateT.pure, Connect, ConsoleCurrent,
      SetRaw, Reset, perform, hc, hcur, hraw]
  rcases hb : copyBoth w fuel false
    ⟨s3, [Event.connect (ctx.String "device") (ctx.Int "baudrate") none,
          Event.consoleCurrent true, Event.setRaw none, Event.go Stream.Stdout Stream.Port]⟩
    with ⟨_ | _, st2⟩
  · exfalso
    apply h
    simp [cmdRepl, exec, bind, StateT.bind, pure, StateT.pure, Connect, ConsoleCurrent,
      SetRaw, Reset, perform, emit, hc, hcur, hraw, hb]
  · have hk := copyBoth_mono w k fuel false
      ⟨s3, [Event.connect (ctx.String "device") (ctx.Int "baudrate") none,
          Event.consoleCurrent true, Event.setRaw none, Event.go Stream.Stdout Stream.Port]⟩
      (by rw [hb])
    rw [hb] at hk
    simp [cmdRepl, exec, bind, StateT.bind, pure, StateT.pure, Connect, ConsoleCurrent,
      SetRaw, Reset, perform, emit, hc, hcur, hraw, hb, hk]

/-- On `linkClosedRepl`, once the spawned copy has returned, the handler's copy goes on
for ever. -/
theorem linkClosed_copyBoth_done (fuel : Nat) :
    ∀ st : Run Unit, (copyBoth linkClosedRepl fuel true st).1 = false := by
  induction fuel with
  | zero => intro st; rfl
  | succ n ih =>
    intro st
    rw [copyBoth_succ]
    exact ih _

/-- On `linkClosedRepl` the spawned copy reads end-of-stream in its first pass and the
handler's copy never returns. -/
theorem linkClosed_copyBoth (fuel : Nat) (st : Run Unit) :
    (copyBoth linkClosedRepl fuel false st).1 = false ∧
    (0 < fuel → Event.read Stream.Port ⟨[], some ReadErr.EOF⟩
      ∈ (copyBoth linkClosedRepl fuel false st).2.trace) := by
  cases fuel with
  | zero => exact ⟨rfl, fun h => absurd h (by decide)⟩
  | succ n =>
    rw [copyBoth_succ]
    refine ⟨linkClosed_copyBoth_done n _, fun _ => ?_⟩
    obtain ⟨copies, -, htr, -⟩ := copyBoth_trace linkClosedRepl n true
      (copyPass linkClosedRepl Stream.Stdout Stream.Port
        ⟨(linkClosedRepl.schedule st.world).2, st.trace⟩).2
    show Event.read Stream.Port ⟨[], some ReadErr.EOF⟩
      ∈ (copyBoth linkClosedRepl n true _).2.trace
    rw [htr]
    apply List.mem_append_left
    show _ ∈ st.trace ++ [Event.read Stream.Port ⟨[], some ReadErr.EOF⟩]
    simp

/-- On `linkClosedRepl`, `cmdRepl` is still running after any number of passes. -/
theorem linkClosed_cmdRepl (ctx : Context) (fuel : Nat) :
    (exec (cmdRepl linkClosedRepl ctx fuel) ()).1 = Outcome.running ∧
    (0 < fuel → Event.read Stream.Port ⟨[], some ReadErr.EOF⟩
      ∈ (exec (cmdRepl linkClosedRepl ctx fuel) ()).2.trace) := by
  obtain ⟨h1, h2⟩ := linkClosed_copyBoth fuel
    ⟨(), [Event.connect (ctx.String "device") (ctx.Int "baudrate") none,
          Event.consoleCurrent true, Event.setRaw none, Event.go Stream.Stdout Stream.Port]⟩
  rcases hb : copyBoth linkClosedRepl fuel false
    ⟨(), [Event.connect (ctx.String "device") (ctx.Int "baudrate") none,
          Event.consoleCurrent true, Event.setRaw none, Event.go Stream.Stdout Stream.Port]⟩
    with ⟨_ | _, st2⟩
  · rw [hb] at h2
    have hrun : exec (cmdRepl linkClosedRepl ctx fuel) () = (Outcome.running, st2) := by
      have hc : linkClosedRepl.Connect (ctx.String "device") (ctx.Int "baudrate") ()
          = (none, ()) := rfl
      have hcur : linkClosedRepl.consoleCurrent () = (true, ()) := rfl
      have hraw : linkClosedRepl.SetRaw () = (none, ()) := rfl
      simp [cmdRepl, exec, bind, StateT.bind, pure, StateT.pure, Connect, ConsoleCurrent,
        SetRaw, perform, emit, hc, hcur, hraw, hb]
    rw [hrun]
    exact ⟨rfl, h2⟩
  · rw [hb] at h1
    cases h1

/-- A pass of the spawned copy: it ends that copy exactly when it adds an event that
ends it, and adds nothing that ends the copy of the handler. -/
theorem spawned_pass_flags {σ : Type} (w : Repl σ) (st : Run σ) :
    spawnedEnded (copyPass w Stream.Stdout Stream.Port st).2.trace
      = (spawnedEnded st.trace || (copyPass w Stream.Stdout Stream.Port st).1.isSome) ∧
    handlerEnded (copyPass w Stream.Stdout Stream.Port st).2.trace
      = handlerEnded st.trace := by
  obtain ⟨htr, hsome⟩ := copyPass_exact w Stream.Stdout Stream.Port st
  rw [htr, hsome]
  by_cases hlen : 0 < (w.Read Stream.Port st.world).1.data.length <;>
    simp [spawnedEnded, handlerEnded, List.any_append, Event.endsSpawned,
      Event.endsHandler, hlen]

/-- A pass of the copy of the handler: it ends that copy exactly when it adds an event
that ends it, and adds nothing that ends the spawned copy. -/
theorem handler_pass_flags {σ : Type} (w : Repl σ) (st : Run σ) :
    handlerEnded (copyPass w Stream.Port Stream.Stdin st).2.trace
      = (handlerEnded st.trace || (copyPass w Stream.Port Stream.Stdin st).1.isSome) ∧
    spawnedEnded (copyPass w Stream.Port Stream.Stdin st).2.trace
      = spawnedEnded st.trace := by
  obtain ⟨htr, hsome⟩ := copyPass_exact w Stream.Port Stream.Stdin st
  rw [htr, hsome]
  by_cases hlen : 0 < (w.Read Stream.Stdin st.world).1.data.length <;>
    simp [spawnedEnded, handlerEnded, List.any_append, Event.endsSpawned,
      Event.endsHandler, hlen]

/-- The two copies return `true` exactly when the trace shows that the copy of the
handler has ended. -/
theorem copyBoth_handlerEnded {σ : Type} (w : Repl σ) (n : Nat) :
    ∀ (b : Bool) (st : Run σ), handlerEnded st.trace = false →
      handlerEnded (copyBoth w n b st).2.trace = (copyBoth w n b st).1 := by
  induction n with
  | zero =>
    intro b st h
    simpa [copyBoth, pure, StateT.pure] using h
  | succ n ih =>
    intro b st h
    rw [copyBoth_succ]
    split
    · apply ih
      rw [(spawned_pass_flags w _).2]
      exact h
    · have hf := (handler_pass_flags w ⟨(w.schedule st.world).2, st.trace⟩).1
      split
      · rename_i r hsome
        rw [hsome] at hf
        simpa using hf
      · rename_i hnone
        apply ih
        rw [hf, hnone]
        simpa using h

/-- One more unit of fuel is one more scheduled pass after the run so far, as long as
the copy of the handler has not returned; whether the spawned copy has returned is
read off the trace. -/
theorem copyBoth_snoc {σ : Type} (w : Repl σ) (n : Nat) :
    ∀ (b : Bool) (st : Run σ), b = spawnedEnded st.trace →
      (copyBoth w n b st).1 = false →
      copyBoth w (n + 1) b st
        = copyBoth w (0 + 1) (spawnedEnded (copyBoth w n b st).2.trace)
            (copyBoth w n b st).2 := by
  induction n with
  | zero =>
    intro b st hb _
    have h0 : copyBoth w 0 b st = (false, st) := rfl
    rw [h0, ← hb]
  | succ n ih =>
    intro b st hb h
    have e1 := copyBoth_succ w (n + 1) b st
    have e2 := copyBoth_succ w n b st
    by_cases hc : ((w.schedule st.world).1 && !b) = true
    · rw [if_pos hc] at e1 e2
      rw [e2] at h
      rw [e1, e2]
      apply ih _ _ _ h
      have hbf : b = false := by
        cases b
        · rfl
        · simp at hc
      rw [(spawned_pass_flags w _).1]
      show _ = (spawnedEnded st.trace || _)
      rw [← hb, hbf]
      simp
    · rw [if_neg hc] at e1 e2
      rcases hp : (copyPass w Stream.Port Stream.Stdin
          ⟨(w.schedule st.world).2, st.trace⟩).1 with _ | r
      · rw [hp] at e1 e2
        simp only [] at e1 e2
        rw [e2] at h
        rw [e1, e2]
        apply ih _ _ _ h
        rw [(handler_pass_flags w _).2]
        exact hb
      · rw [hp] at e2
        simp only [] at e2
        rw [e2] at h
        cases h

/-- A run of `cmdRepl` in which `Connect`, `console.Current()` and `SetRaw` succeed:
the two copies run from the state after `go`, and the handler resets the console and
returns `nil` when its own copy has returned. -/
theorem cmdRepl_setup {σ : Type} (w : Repl σ) (ctx : Context) (fuel : Nat)
    (s s1 s2 s3 : σ)
    (hc : w.Connect (ctx.String "device") (ctx.Int "baudrate") s = (none, s1))
    (hcur : w.consoleCurrent s1 = (true, s2)) (hraw : w.SetRaw s2 = (none, s3))
    (b : Bool) (st : Run σ)
    (hb : copyBoth w fuel false
      ⟨s3, [Event.connect (ctx.String "device") (ctx.Int "baudrate") none,
            Event.consoleCurrent true, Event.setRaw none,
            Event.go Stream.Stdout Stream.Port]⟩ = (b, st)) :
    exec (cmdRepl w ctx fuel) s
      = if b = true then
          (Outcome.returned none,
            ⟨(w.Reset st.world).2, st.trace ++ [Event.reset (w.Reset st.world).1]⟩)
        else (Outcome.running, st) := by
  cases b <;>
  simp [cmdRepl, exec, bind, StateT.bind, pure, StateT.pure, Connect, ConsoleCurrent,
    SetRaw, Reset, perform, emit, hc, hcur, hraw, hb]

/-- While console reads report no error and link writes succeed in full, the copy of
the handler never returns, whatever the link reads give. -/
theorem copyBoth_console_open {σ : Type} (w : Repl σ)
    (hstdin : ∀ t, (w.Read Stream.Stdin t).1.err = none)
    (hwrite : ∀ data t, (w.Write Stream.Port data t).1 = ⟨data.length, none⟩)
    (n : Nat) : ∀ (b : Bool) (st : Run σ), (copyBoth w n b st).1 = false := by
  induction n with
  | zero => intro b st; rfl
  | succ n ih =>
    intro b st
    rw [copyBoth_succ]
    split
    · exact ih _ _
    · have hsome := (copyPass_exact w Stream.Port Stream.Stdin
        ⟨(w.schedule st.world).2, st.trace⟩).2
      rw [hstdin, hwrite] at hsome
      simp at hsome
      rw [hsome]
      exact ih _ _

/-- Either `Connect`, `console.Current()` and `SetRaw` all succeed, or the run ends
before any copy starts, with an error or a panic. -/
theorem cmdRepl_setup_cases {σ : Type} (w : Repl σ) (ctx : Context) (s : σ) :
    (∃ s1 s2 s3, w.Connect (ctx.String "device") (ctx.Int "baudrate") s = (none, s1) ∧
      w.consoleCurrent s1 = (true, s2) ∧ w.SetRaw s2 = (none, s3)) ∨
    (∀ fuel, (exec (cmdRepl w ctx fuel) s).1 ≠ Outcome.running ∧
      (exec (cmdRepl w ctx fuel) s).1 ≠ Outcome.returned none ∧
      handlerEnded (exec (cmdRepl w ctx fuel) s).2.trace = false) := by
  rcases hc : w.Connect (ctx.String "device") (ctx.Int "baudrate") s with ⟨_ | e, s1⟩
  swap
  · right
    intro fuel
    simp [cmdRepl, exec, bind, StateT.bind, pure, StateT.pure, Connect, perform, hc,
      handlerEnded, Event.endsHandler]
  rcases hcur : w.consoleCurrent s1 with ⟨_ | _, s2⟩
  · right
    intro fuel
    simp [cmdRepl, exec, bind, StateT.bind, pure, StateT.pure, Connect, ConsoleCurrent,
      perform, hc, hcur, handlerEnded, Event.endsHandler]
  rcases hraw : w.SetRaw s2 with ⟨_ | e, s3⟩
  swap
  · right
    intro fuel
    simp [cmdRepl, exec, bind, StateT.bind, pure, StateT.pure, Connect, ConsoleCurrent,
      SetRaw, Reset, perform, hc, hcur, hraw, handlerEnded, Event.endsHandler]
  exact Or.inl ⟨s1, s2, s3, rfl, hcur, hraw⟩

/-- The handler returns `nil` exactly when the trace shows that its own copy ended. -/
theorem cmdRepl_returned_iff {σ : Type} (w : Repl σ) (ctx : Context) (fuel : Nat) (s : σ) :
    (exec (cmdRepl w ctx fuel) s).1 = Outcome.returned none ↔
      handlerEnded (exec (cmdRepl w ctx fuel) s).2.trace = true := by
  rcases cmdRepl_setup_cases w ctx s with ⟨s1, s2, s3, hc, hcur, hraw⟩ | h
  · rcases hb : copyBoth w fuel false
      ⟨s3, [Event.connect (ctx.String "device") (ctx.Int "baudrate") none,
            Event.consoleCurrent true, Event.setRaw none,
            Event.go Stream.Stdout Stream.Port]⟩ with ⟨b, st⟩
    have hend := copyBoth_handlerEnded w fuel false
      ⟨s3, [Event.connect (ctx.String "device") (ctx.Int "baudrate") none,
            Event.consoleCurrent true, Event.setRaw none,
            Event.go Stream.Stdout Stream.Port]⟩
      (by simp [handlerEnded, Event.endsHandler])
    rw [hb] at hend
    rw [cmdRepl_setup w ctx fuel s s1 s2 s3 hc hcur hraw b st hb]
    cases b
    · simp only [] at hend
      simp [hend]
    · simp only [] at hend
      simp only [handlerEnded] at hend
      simp [handlerEnded, List.any_append, hend]
  · obtain ⟨-, h2, h3⟩ := h fuel
    rw [h3]
    simp [h2]

/-- The step law of `cmdRepl`: while it is running, one more unit of fuel is one more
pass, of the goroutine the scheduler picks. -/
theorem cmdRepl_step {σ : Type} (w : Repl σ) (ctx : Context) (n : Nat) (s : σ)
    (hrun : (exec (cmdRepl w ctx n) s).1 = Outcome.running) :
    exec (cmdRepl w ctx (n + 1)) s =
      if ((w.schedule (exec (cmdRepl w ctx n) s).2.world).1 &&
          !spawnedEnded (exec (cmdRepl w ctx n) s).2.trace) = true then
        (Outcome.running,
          (copyPass w Stream.Stdout Stream.Port
            (scheduled w (exec (cmdRepl w ctx n) s).2)).2)
      else if (copyPass w Stream.Port Stream.Stdin
          (scheduled w (exec (cmdRepl w ctx n) s).2)).1.isSome = true then
        (Outcome.returned none,
          ⟨(w.Reset (copyPass w Stream.Port Stream.Stdin
              (scheduled w (exec (cmdRepl w ctx n) s).2)).2.world).2,
           (copyPass w Stream.Port Stream.Stdin
              (scheduled w (exec (cmdRepl w ctx n) s).2)).2.trace
            ++ [Event.reset (w.Reset (copyPass w Stream.Port Stream.Stdin
              (scheduled w (exec (cmdRepl w ctx n) s).2)).2.world).1]⟩)
      else
        (Outcome.running,
          (copyPass w Stream.Port Stream.Stdin
            (scheduled w (exec (cmdRepl w ctx n) s).2)).2) := by
  rcases cmdRepl_setup_cases w ctx s with ⟨s1, s2, s3, hc, hcur, hraw⟩ | h
  swap
  · exact absurd hrun (h n).1
  rcases hb : copyBoth w n false
    ⟨s3, [Event.connect (ctx.String "device") (ctx.Int "baudrate") none,
          Event.consoleCurrent true, Event.setRaw none,
          Event.go Stream.Stdout Stream.Port]⟩ with ⟨b, st⟩
  have hn := cmdRepl_setup w ctx n s s1 s2 s3 hc hcur hraw b st hb
  cases b
  swap
  · rw [hn] at hrun
    simp at hrun
  simp only [Bool.false_eq_true, if_false] at hn
  rw [hn]
  dsimp only
  have hsnoc := copyBoth_snoc w n false
    ⟨s3, [Event.connect (ctx.String "device") (ctx.Int "baudrate") none,
          Event.consoleCurrent true, Event.setRaw none,
          Event.go Stream.Stdout Stream.Port]⟩
    (by simp [spawnedEnded, Event.endsSpawned]) (by rw [hb])
  rw [hb] at hsnoc
  dsimp only at hsnoc
  rw [copyBoth_succ w 0 (spawnedEnded st.trace) st] at hsnoc
  have h0 : ∀ (b : Bool) (t : Run σ), copyBoth w 0 b t = (false, t) := fun _ _ => rfl
  by_cases hpick : ((w.schedule st.world).1 && !spawnedEnded st.trace) = true
  · rw [if_pos hpick, h0] at hsnoc
    rw [if_pos hpick]
    rw [cmdRepl_setup w ctx (n + 1) s s1 s2 s3 hc hcur hraw _ _ hsnoc]
    simp [scheduled]
  · rw [if_neg hpick] at hsnoc
    rw [if_neg hpick]
    rcases hp : (copyPass w Stream.Port Stream.Stdin
        ⟨(w.schedule st.world).2, st.trace⟩).1 with _ | r
    · rw [hp, h0] at hsnoc
      simp only [] at hsnoc
      rw [cmdRepl_setup w ctx (n + 1) s s1 s2 s3 hc hcur hraw _ _ hsnoc]
      simp [scheduled, hp]
    · rw [hp] at hsnoc
      simp only [] at hsnoc
      rw [cmdRepl_setup w ctx (n + 1) s s1 s2 s3 hc hcur hraw _ _ hsnoc]
      simp [scheduled, hp]

/-- While console reads report no error and link writes succeed in full, `cmdRepl`
never returns `nil`, whatever the link reads give. -/
theorem cmdRepl_console_open {σ : Type} (w : Repl σ) (ctx : Context) (s : σ)
    (hstdin : ∀ t, (w.Read Stream.Stdin t).1.err = none)
    (hwrite : ∀ data t, (w.Write Stream.Port data t).1 = ⟨data.length, none⟩)
    (fuel : Nat) : (exec (cmdRepl w ctx fuel) s).1 ≠ Outcome.returned none := by
  rcases cmdRepl_setup_cases w ctx s with ⟨s1, s2, s3, hc, hcur, hraw⟩ | h
  · rcases hb : copyBoth w fuel false
      ⟨s3, [Event.connect (ctx.String "device") (ctx.Int "baudrate") none,
            Event.consoleCurrent true, Event.setRaw none,
            Event.go Stream.Stdout Stream.Port]⟩ with ⟨b, st⟩
    have hf := copyBoth_console_open w hstdin hwrite fuel false
      ⟨s3, [Event.connect (ctx.String "device") (ctx.Int "baudrate") none,
            Event.consoleCurrent true, Event.setRaw none,
            Event.go Stream.Stdout Stream.Port]⟩
    rw [hb] at hf
    simp only [] at hf
    subst hf
    rw [cmdRepl_setup w ctx fuel s s1 s2 s3 hc hcur hraw false st hb]
    simp
  · exact (h fuel).2.1

/-- The run of `cmdRepl` on `chatRepl` after three passes: spawned copy, copy of the
handler, spawned copy. -/
theorem chatRepl_three_passes :
    (exec (cmdRepl chatRepl (ctxOf []) 3) 0).2.trace
      = [Event.connect "/dev/ttyUSB0" 115200 none,
         Event.consoleCurrent true, Event.setRaw none,
         Event.go Stream.Stdout Stream.Port,
         Event.read Stream.Port ⟨[79, 75], none⟩,
         Event.write Stream.Stdout [79, 75] ⟨2, none⟩,
         Event.read Stream.Stdin ⟨[120], none⟩,
         Event.write Stream.Port [120] ⟨1, none⟩,
         Event.read Stream.Port ⟨[79, 75], none⟩,
         Event.write Stream.Stdout [79, 75] ⟨2, none⟩] := by
  decide

/-- The run of `cmdRepl` on `chatRepl` after four passes: the fourth is the pass of the
copy of the handler that reads end-of-stream, and the console is reset. -/
theorem chatRepl_four_passes :
    (exec (cmdRepl chatRepl (ctxOf []) 4) 0).2.trace
      = [Event.connect "/dev/ttyUSB0" 115200 none,
         Event.consoleCurrent true, Event.setRaw none,
         Event.go Stream.Stdout Stream.Port,
         Event.read Stream.Port ⟨[79, 75], none⟩,
         Event.write Stream.Stdout [79, 75] ⟨2, none⟩,
         Event.read Stream.Stdin ⟨[120], none⟩,
         Event.write Stream.Port [120] ⟨1, none⟩,
         Event.read Stream.Port ⟨[79, 75], none⟩,
         Event.write Stream.Stdout [79, 75] ⟨2, none⟩,
         Event.read Stream.Stdin ⟨[], some ReadErr.EOF⟩,
         Event.reset none] := by
  decide

/-! ## The claims -/

/-- Claim C1: in every run of every filesystem command handler, a session operation
occurs only as the handler's own operation, after an `EnterRawMode` that returned no
error, before every `ExitRawMode`, and no other session operation occurs in the run. -/
theorem C1_operation_only_in_raw_mode {σ : Type} (c : FsCommand) (w : Repl σ)
    (ctx : Context) (s : σ) (pre post : List Event) (ev : Event)
    (hsplit : (exec (c.Action w ctx) s).2.trace = pre ++ ev :: post)
    (hop : ev.isOp = true) :
    (∃ v r, ev = .op (c.call ctx) v r) ∧
    Event.enterRawMode none ∈ pre ∧
    (∀ x, Event.exitRawMode x ∉ pre) ∧
    (∀ e ∈ pre ++ post, e.isOp = false) := by
  rcases Action_cases c w ctx s with ⟨e, -, h⟩ | ⟨e, -, h⟩ | ⟨v, r, x, -, h⟩
  · rw [h] at hsplit
    rcases pre with _ | ⟨p, pre⟩
    · simp at hsplit
      rw [← hsplit.1] at hop
      simp [Event.isOp] at hop
    · simp at hsplit
  · rw [h] at hsplit
    rcases pre with _ | ⟨p1, _ | ⟨p2, pre⟩⟩
    · simp at hsplit
      rw [← hsplit.1] at hop
      simp [Event.isOp] at hop
    · simp at hsplit
      rw [← hsplit.2.1] at hop
      simp [Event.isOp] at hop
    · simp at hsplit
  · rw [h] at hsplit
    obtain ⟨h1, h2, h3⟩ := split_at_op (a := Event.connect _ _ _)
      (b := Event.enterRawMode _) (x := Event.exitRawMode _) rfl rfl isOp_prints rfl hop hsplit
    subst h1 h2 h3
    refine ⟨⟨v, r, rfl⟩, by simp, by simp, ?_⟩
    intro e he
    simp only [List.mem_append, List.mem_cons, List.mem_singleton, List.not_mem_nil,
      or_false] at he
    rcases he with (rfl | rfl) | he | rfl
    · rfl
    · rfl
    · exact isOp_prints e he
    · rfl

theorem C1_operation_only_in_raw_mode_witness :
    (∃ v r, Event.op (.Cat .Stdout "main.py") .unit none
        = .op (FsCommand.cat.call (ctxOf ["main.py"])) v r) ∧
    Event.enterRawMode none ∈
        [Event.connect "/dev/ttyUSB0" 115200 none, Event.enterRawMode none] ∧
    (∀ x, Event.exitRawMode x ∉
        [Event.connect "/dev/ttyUSB0" 115200 none, Event.enterRawMode none]) ∧
    (∀ e ∈ [Event.connect "/dev/ttyUSB0" 115200 none, Event.enterRawMode none]
        ++ [Event.exitRawMode none], e.isOp = false) :=
  C1_operation_only_in_raw_mode FsCommand.cat (fixedRepl none none none [] "")
    (ctxOf ["main.py"]) ()
    [Event.connect "/dev/ttyUSB0" 115200 none, Event.enterRawMode none]
    [Event.exitRawMode none] (Event.op (.Cat .Stdout "main.py") .unit none) rfl rfl

/-- Claim C2: when `Connect` and `EnterRawMode` have succeeded, every filesystem command
handler goes on to call its session operation and then calls `ExitRawMode` exactly
once, as the last action of the run and hence after the operation has returned,
whatever the operation returned; the handler returns what the operation returned. -/
theorem C2_exit_raw_mode_guaranteed {σ : Type} (c : FsCommand) (w : Repl σ)
    (ctx : Context) (s s1 s2 : σ)
    (hc : w.Connect (ctx.String "device") (ctx.Int "baudrate") s = (none, s1))
    (he : w.EnterRawMode s1 = (none, s2)) :
    ∃ v r mid x,
      (exec (c.Action w ctx) s).2.trace
        = [Event.connect (ctx.String "device") (ctx.Int "baudrate") none,
           Event.enterRawMode none]
          ++ Event.op (c.call ctx) v r :: mid ++ [Event.exitRawMode x] ∧
      (∀ y, Event.exitRawMode y ∉
        [Event.connect (ctx.String "device") (ctx.Int "baudrate") none,
         Event.enterRawMode none] ++ Event.op (c.call ctx) v r :: mid) ∧
      (∀ ev ∈ mid, ev.isOp = false) ∧
      (exec (c.Action w ctx) s).1 = r := by
  obtain ⟨v, r, x, s3, h⟩ := Action_entered c w ctx s s1 s2 hc he
  refine ⟨v, r, c.prints v r, x, ?_, ?_, isOp_prints, ?_⟩
  · rw [h]
    simp
  · intro y hy
    simp only [List.mem_append, List.mem_cons, List.mem_singleton, List.not_mem_nil,
      or_false] at hy
    rcases hy with (hy | hy) | hy | hy
    · cases hy
    · cases hy
    · cases hy
    · obtain ⟨str, hstr⟩ := mem_prints hy
      cases hstr
  · rw [h]

theorem C2_exit_raw_mode_guaranteed_witness :
    (∃ v r mid x,
      (exec (FsCommand.ls.Action (fixedRepl none none (some "timeout") [] "")
          (ctxOf [])) ()).2.trace
        = [Event.connect ((ctxOf []).String "device") ((ctxOf []).Int "baudrate") none,
           Event.enterRawMode none]
          ++ Event.op (FsCommand.ls.call (ctxOf [])) v r :: mid ++ [Event.exitRawMode x] ∧
      (∀ y, Event.exitRawMode y ∉
        [Event.connect ((ctxOf []).String "device") ((ctxOf []).Int "baudrate") none,
         Event.enterRawMode none] ++ Event.op (FsCommand.ls.call (ctxOf [])) v r :: mid) ∧
      (∀ ev ∈ mid, ev.isOp = false) ∧
      (exec (FsCommand.ls.Action (fixedRepl none none (some "timeout") [] "")
          (ctxOf [])) ()).1 = r) ∧
    (exec (FsCommand.ls.Action (fixedRepl none none (some "timeout") [] "")
        (ctxOf [])) ()).2.trace
      = [Event.connect "/dev/ttyUSB0" 115200 none, Event.enterRawMode none,
         Event.op Call.Ls (Value.names []) (some "timeout"), Event.exitRawMode none] ∧
    (exec (FsCommand.cat.Action (fixedRepl none none none [] "")
        (ctxOf ["main.py"])) ()).2.trace
      = [Event.connect "/dev/ttyUSB0" 115200 none, Event.enterRawMode none,
         Event.op (Call.Cat Stream.Stdout "main.py") Value.unit none,
         Event.exitRawMode none] :=
  ⟨C2_exit_raw_mode_guaranteed FsCommand.ls (fixedRepl none none (some "timeout") [] "")
    (ctxOf []) () () () rfl rfl, rfl, rfl⟩

/-- Claim C4: when `Connect` and `EnterRawMode` both succeed, a filesystem command
handler performs its session operation and returns exactly the error that operation
returned (`nil` when it returned none); when the operation returned an error the
handler prints nothing. -/
theorem C4_returns_operation_error {σ : Type} (c : FsCommand) (w : Repl σ)
    (ctx : Context) (s s1 s2 : σ)
    (hc : w.Connect (ctx.String "device") (ctx.Int "baudrate") s = (none, s1))
    (he : w.EnterRawMode s1 = (none, s2)) :
    ∃ v r,
      Event.op (c.call ctx) v r ∈ (exec (c.Action w ctx) s).2.trace ∧
      (∀ ev ∈ (exec (c.Action w ctx) s).2.trace, ev.isOp = true →
        ev = Event.op (c.call ctx) v r) ∧
      (exec (c.Action w ctx) s).1 = r ∧
      (r ≠ none → (∀ str, Event.print str ∉ (exec (c.Action w ctx) s).2.trace) ∧
        stdout (exec (c.Action w ctx) s).2.trace = "") := by
  obtain ⟨v, r, x, s3, h⟩ := Action_entered c w ctx s s1 s2 hc he
  have hnp : r ≠ none → ∀ str, Event.print str ∉ (exec (c.Action w ctx) s).2.trace := by
    intro hr str hm
    rw [h] at hm
    have hp : c.prints v r = [] := by
      unfold FsCommand.prints
      split <;> first | rfl | exact absurd rfl hr
    simp [hp] at hm
  refine ⟨v, r, ?_, ?_, ?_, fun hr => ⟨hnp hr, stdout_of_no_print _ (hnp hr)⟩⟩
  · rw [h]
    simp
  · intro ev hm hop
    rw [h] at hm
    simp only [List.mem_append, List.mem_cons, List.mem_singleton, List.not_mem_nil,
      or_false] at hm
    rcases hm with ((rfl | rfl | rfl) | hm) | rfl
    · cases hop
    · cases hop
    · rfl
    · rw [isOp_prints ev hm] at hop
      cases hop
    · cases hop
  · rw [h]

theorem C4_returns_operation_error_witness :
    ∃ v r,
      Event.op (FsCommand.pwd.call (ctxOf [])) v r
        ∈ (exec (FsCommand.pwd.Action (fixedRepl none none (some "ENOENT") [] "/")
            (ctxOf [])) ()).2.trace ∧
      (∀ ev ∈ (exec (FsCommand.pwd.Action (fixedRepl none none (some "ENOENT") [] "/")
            (ctxOf [])) ()).2.trace, ev.isOp = true →
        ev = Event.op (FsCommand.pwd.call (ctxOf [])) v r) ∧
      (exec (FsCommand.pwd.Action (fixedRepl none none (some "ENOENT") [] "/")
            (ctxOf [])) ()).1 = r ∧
      (r ≠ none → (∀ str, Event.print str
          ∉ (exec (FsCommand.pwd.Action (fixedRepl none none (some "ENOENT") [] "/")
            (ctxOf [])) ()).2.trace) ∧
        stdout (exec (FsCommand.pwd.Action (fixedRepl none none (some "ENOENT") [] "/")
            (ctxOf [])) ()).2.trace = "") :=
  C4_returns_operation_error FsCommand.pwd (fixedRepl none none (some "ENOENT") [] "/")
    (ctxOf []) () () () rfl rfl

/-- Claim C5: when `Connect` returns an error, each of the twelve filesystem command
handlers and `cmdRepl` returns exactly that error, and the `Connect` call is the only
action of the run: no session call, no console call, nothing printed. -/
theorem C5_connect_error_propagated {σ : Type} (w : Repl σ) (ctx : Context)
    (s s1 : σ) (e : Err)
    (hc : w.Connect (ctx.String "device") (ctx.Int "baudrate") s = (some e, s1)) :
    (∀ c : FsCommand,
      (exec (c.Action w ctx) s).1 = some e ∧
      (exec (c.Action w ctx) s).2.trace
        = [Event.connect (ctx.String "device") (ctx.Int "baudrate") (some e)] ∧
      stdout (exec (c.Action w ctx) s).2.trace = "") ∧
    (∀ fuel : Nat,
      (exec (cmdRepl w ctx fuel) s).1 = Outcome.returned (some e) ∧
      (exec (cmdRepl w ctx fuel) s).2.trace
        = [Event.connect (ctx.String "device") (ctx.Int "baudrate") (some e)] ∧
      stdout (exec (cmdRepl w ctx fuel) s).2.trace = "") := by
  constructor
  · intro c
    rw [Action_connect_failed c w ctx s s1 e hc]
    exact ⟨rfl, rfl, rfl⟩
  · intro fuel
    rw [cmdRepl_connect_failed w ctx fuel s s1 e hc]
    exact ⟨rfl, rfl, rfl⟩

theorem C5_connect_error_propagated_witness :
    (∀ c : FsCommand,
      (exec (c.Action (fixedRepl (some "no such device") none none [] "")
          (ctxOf [])) ()).1 = some "no such device" ∧
      (exec (c.Action (fixedRepl (some "no such device") none none [] "")
          (ctxOf [])) ()).2.trace
        = [Event.connect ((ctxOf []).String "device") ((ctxOf []).Int "baudrate")
            (some "no such device")] ∧
      stdout (exec (c.Action (fixedRepl (some "no such device") none none [] "")
          (ctxOf [])) ()).2.trace = "") ∧
    (∀ fuel : Nat,
      (exec (cmdRepl (fixedRepl (some "no such device") none none [] "")
          (ctxOf []) fuel) ()).1 = Outcome.returned (some "no such device") ∧
      (exec (cmdRepl (fixedRepl (some "no such device") none none [] "")
          (ctxOf []) fuel) ()).2.trace
        = [Event.connect ((ctxOf []).String "device") ((ctxOf []).Int "baudrate")
            (some "no such device")] ∧
      stdout (exec (cmdRepl (fixedRepl (some "no such device") none none [] "")
          (ctxOf []) fuel) ()).2.trace = "") :=
  C5_connect_error_propagated (fixedRepl (some "no such device") none none [] "")
    (ctxOf []) () () "no such device" rfl

/-- Claim C9: when `Connect` succeeds and `EnterRawMode` returns an error, a filesystem
command handler returns exactly that error, and `Connect` and `EnterRawMode` are the
only actions of the run: no session operation, no `ExitRawMode`, nothing printed. -/
theorem C9_enter_raw_mode_error_propagated {σ : Type} (c : FsCommand) (w : Repl σ)
    (ctx : Context) (s s1 s2 : σ) (e : Err)
    (hc : w.Connect (ctx.String "device") (ctx.Int "baudrate") s = (none, s1))
    (he : w.EnterRawMode s1 = (some e, s2)) :
    (exec (c.Action w ctx) s).1 = some e ∧
    (exec (c.Action w ctx) s).2.trace
      = [Event.connect (ctx.String "device") (ctx.Int "baudrate") none,
         Event.enterRawMode (some e)] ∧
    (∀ ev ∈ (exec (c.Action w ctx) s).2.trace, ev.isOp = false) ∧
    (∀ x, Event.exitRawMode x ∉ (exec (c.Action w ctx) s).2.trace) ∧
    (∀ str, Event.print str ∉ (exec (c.Action w ctx) s).2.trace) ∧
    stdout (exec (c.Action w ctx) s).2.trace = "" := by
  rw [Action_enter_failed c w ctx s s1 s2 e hc he]
  refine ⟨rfl, rfl, ?_, ?_, ?_, rfl⟩
  · intro ev hm
    simp only [List.mem_cons, List.mem_singleton, List.not_mem_nil, or_false] at hm
    rcases hm with rfl | rfl <;> rfl
  · intro x hm
    simp at hm
  · intro str hm
    simp at hm

theorem C9_enter_raw_mode_error_propagated_witness :
    (exec (FsCommand.reboot.Action (fixedRepl none (some "timeout") none [] "")
        (ctxOf [])) ()).1 = some "timeout" ∧
    (exec (FsCommand.reboot.Action (fixedRepl none (some "timeout") none [] "")
        (ctxOf [])) ()).2.trace
      = [Event.connect ((ctxOf []).String "device") ((ctxOf []).Int "baudrate") none,
         Event.enterRawMode (some "timeout")] ∧
    (∀ ev ∈ (exec (FsCommand.reboot.Action (fixedRepl none (some "timeout") none [] "")
        (ctxOf [])) ()).2.trace, ev.isOp = false) ∧
    (∀ x, Event.exitRawMode x
        ∉ (exec (FsCommand.reboot.Action (fixedRepl none (some "timeout") none [] "")
        (ctxOf [])) ()).2.trace) ∧
    (∀ str, Event.print str
        ∉ (exec (FsCommand.reboot.Action (fixedRepl none (some "timeout") none [] "")
        (ctxOf [])) ()).2.trace) ∧
    stdout (exec (FsCommand.reboot.Action (fixedRepl none (some "timeout") none [] "")
        (ctxOf [])) ()).2.trace = "" :=
  C9_enter_raw_mode_error_propagated FsCommand.reboot
    (fixedRepl none (some "timeout") none [] "") (ctxOf []) () () () "timeout" rfl rfl

/-- Claim C6: when `Ls` returns the names `fs` without error, `cmdLs` prints each name
followed by two spaces, in the order returned, then one newline, prints nothing else,
and returns `nil`. -/
theorem C6_ls_prints_listing_in_order {σ : Type} (w : Repl σ) (ctx : Context)
    (s s1 s2 s3 : σ) (fs : List String)
    (hc : w.Connect (ctx.String "device") (ctx.Int "baudrate") s = (none, s1))
    (he : w.EnterRawMode s1 = (none, s2))
    (hl : w.Ls s2 = ((fs, none), s3)) :
    (exec (cmdLs w ctx) s).1 = none ∧
    (∃ x, (exec (cmdLs w ctx) s).2.trace
      = [Event.connect (ctx.String "device") (ctx.Int "baudrate") none,
         Event.enterRawMode none, Event.op Call.Ls (Value.names fs) none]
        ++ fs.map (fun f => Event.print (f ++ "  "))
        ++ [Event.print "\n", Event.exitRawMode x]) ∧
    stdout (exec (cmdLs w ctx) s).2.trace
      = String.join (fs.map (fun f => f ++ "  ")) ++ "\n" := by
  rw [cmdLs_entered w ctx s s1 s2 s3 fs none hc he hl]
  refine ⟨rfl, ⟨(w.ExitRawMode s3).1, by simp [FsCommand.prints]⟩, ?_⟩
  simp only [FsCommand.prints, stdout_append, stdout_prints]
  simp [stdout]

theorem C6_ls_prints_listing_in_order_witness :
    (exec (cmdLs (fixedRepl none none none ["boot.py", "lib", "main.py"] "/")
        (ctxOf [])) ()).1 = none ∧
    (∃ x, (exec (cmdLs (fixedRepl none none none ["boot.py", "lib", "main.py"] "/")
        (ctxOf [])) ()).2.trace
      = [Event.connect ((ctxOf []).String "device") ((ctxOf []).Int "baudrate") none,
         Event.enterRawMode none,
         Event.op Call.Ls (Value.names ["boot.py", "lib", "main.py"]) none]
        ++ ["boot.py", "lib", "main.py"].map (fun f => Event.print (f ++ "  "))
        ++ [Event.print "\n", Event.exitRawMode x]) ∧
    stdout (exec (cmdLs (fixedRepl none none none ["boot.py", "lib", "main.py"] "/")
        (ctxOf [])) ()).2.trace
      = String.join (["boot.py", "lib", "main.py"].map (fun f => f ++ "  ")) ++ "\n" :=
  C6_ls_prints_listing_in_order (fixedRepl none none none ["boot.py", "lib", "main.py"] "/")
    (ctxOf []) () () () () ["boot.py", "lib", "main.py"] rfl rfl rfl

/-- Claim C7: when `Cwd` returns the string `cwd` without error, `cmdPwd` prints exactly
`cwd` followed by one newline and returns `nil`. -/
theorem C7_pwd_prints_path {σ : Type} (w : Repl σ) (ctx : Context)
    (s s1 s2 s3 : σ) (cwd : String)
    (hc : w.Connect (ctx.String "device") (ctx.Int "baudrate") s = (none, s1))
    (he : w.EnterRawMode s1 = (none, s2))
    (hl : w.Cwd s2 = ((cwd, none), s3)) :
    (exec (cmdPwd w ctx) s).1 = none ∧
    (∃ x, (exec (cmdPwd w ctx) s).2.trace
      = [Event.connect (ctx.String "device") (ctx.Int "baudrate") none,
         Event.enterRawMode none, Event.op Call.Cwd (Value.path cwd) none,
         Event.print (cwd ++ "\n"), Event.exitRawMode x]) ∧
    stdout (exec (cmdPwd w ctx) s).2.trace = cwd ++ "\n" := by
  rw [cmdPwd_entered w ctx s s1 s2 s3 cwd none hc he hl]
  refine ⟨rfl, ⟨(w.ExitRawMode s3).1, by simp [FsCommand.prints]⟩, ?_⟩
  simp [FsCommand.prints, stdout]

theorem C7_pwd_prints_path_witness :
    (exec (cmdPwd (fixedRepl none none none [] "/lib") (ctxOf [])) ()).1 = none ∧
    (∃ x, (exec (cmdPwd (fixedRepl none none none [] "/lib") (ctxOf [])) ()).2.trace
      = [Event.connect ((ctxOf []).String "device") ((ctxOf []).Int "baudrate") none,
         Event.enterRawMode none, Event.op Call.Cwd (Value.path "/lib") none,
         Event.print ("/lib" ++ "\n"), Event.exitRawMode x]) ∧
    stdout (exec (cmdPwd (fixedRepl none none none [] "/lib") (ctxOf [])) ()).2.trace
      = "/lib" ++ "\n" :=
  C7_pwd_prints_path (fixedRepl none none none [] "/lib") (ctxOf []) () () () () "/lib"
    rfl rfl rfl

/-- Claim C3: in every run of `cmdRepl` no call is made on the session other than
`Connect`: the run is `Connect`, then console calls and the start of the spawned copy,
then an interleaving of copy passes, each a read from the link or the console input
followed by a write of the bytes just read to the console output or the link, then
console calls. -/
theorem C3_passthrough_never_enters_raw_mode {σ : Type} (w : Repl σ) (ctx : Context)
    (fuel : Nat) (s : σ) :
    (∀ ev ∈ (exec (cmdRepl w ctx fuel) s).2.trace, ev.isSession = false) ∧
    (∃ e setup copies closing,
      (exec (cmdRepl w ctx fuel) s).2.trace
        = Event.connect (ctx.String "device") (ctx.Int "baudrate") e
            :: setup ++ copies ++ closing ∧
      Spliced copies ∧
      (∀ ev ∈ setup ++ closing,
        ev.isConsole = true ∨ ev = Event.go Stream.Stdout Stream.Port)) := by
  have hcons : ∀ (e : Option Err) (setup copies closing : List Event),
      (exec (cmdRepl w ctx fuel) s).2.trace
        = Event.connect (ctx.String "device") (ctx.Int "baudrate") e
            :: setup ++ copies ++ closing →
      Spliced copies →
      (∀ ev ∈ setup ++ closing,
        ev.isConsole = true ∨ ev = Event.go Stream.Stdout Stream.Port) →
      ∀ ev ∈ (exec (cmdRepl w ctx fuel) s).2.trace, ev.isSession = false := by
    intro e setup copies closing htr hsp hsc ev hev
    rw [htr] at hev
    simp only [List.cons_append, List.mem_cons, List.mem_append] at hev
    rcases hev with rfl | (hev | hev) | hev
    · rfl
    · rcases hsc ev (List.mem_append_left _ hev) with h | rfl
      · cases ev <;> first | rfl | cases h
      · rfl
    · exact Spliced_not_session hsp ev hev
    · rcases hsc ev (List.mem_append_right _ hev) with h | rfl
      · cases ev <;> first | rfl | cases h
      · rfl
  have hshape : ∃ e setup copies closing,
      (exec (cmdRepl w ctx fuel) s).2.trace
        = Event.connect (ctx.String "device") (ctx.Int "baudrate") e
            :: setup ++ copies ++ closing ∧
      Spliced copies ∧
      (∀ ev ∈ setup ++ closing,
        ev.isConsole = true ∨ ev = Event.go Stream.Stdout Stream.Port) := by
    rcases cmdRepl_cases w ctx fuel s with ⟨e, -, h⟩ | ⟨-, h⟩ | ⟨e, x, -, h⟩ |
      ⟨copies, hsp, -, -, h⟩ | ⟨copies, x, hsp, -, h⟩
    · exact ⟨some e, [], [], [], by rw [h]; rfl, Spliced.done, by simp⟩
    · exact ⟨none, [Event.consoleCurrent false], [], [], by rw [h]; rfl, Spliced.done,
        by simp [Event.isConsole]⟩
    · exact ⟨none, [Event.consoleCurrent true, Event.setRaw (some e), Event.reset x], [], [],
        by rw [h]; rfl, Spliced.done, by simp [Event.isConsole]⟩
    · exact ⟨none, [Event.consoleCurrent true, Event.setRaw none,
          Event.go Stream.Stdout Stream.Port], copies, [], by rw [h]; simp, hsp,
        by simp [Event.isConsole]⟩
    · exact ⟨none, [Event.consoleCurrent true, Event.setRaw none,
          Event.go Stream.Stdout Stream.Port], copies, [Event.reset x], by simp [h], hsp,
        by simp [Event.isConsole]⟩
  obtain ⟨e, setup, copies, closing, htr, hsp, hsc⟩ := hshape
  exact ⟨hcons e setup copies closing htr hsp hsc, e, setup, copies, closing, htr, hsp, hsc⟩

/-- Claim C8 as stated fails: with the link at end-of-stream and a console that keeps
delivering input, the link-to-console copy observes end-of-stream in its first pass and
`cmdRepl` has still not returned after any number of passes. -/
theorem C8_link_end_of_stream_does_not_terminate :
    (Event.read Stream.Port ⟨[], some ReadErr.EOF⟩
      ∈ (exec (cmdRepl linkClosedRepl (ctxOf []) 3) ()).2.trace ∧
     (exec (cmdRepl linkClosedRepl (ctxOf []) 3) ()).1 = Outcome.running) ∧
    ¬ (∃ fuel, (exec (cmdRepl linkClosedRepl (ctxOf []) fuel) ()).1 ≠ Outcome.running) ∧
    ¬ (∀ (w : Repl Unit) (ctx : Context) (fuel : Nat) (r : ReadResult),
        Event.read Stream.Port r ∈ (exec (cmdRepl w ctx fuel) ()).2.trace →
        r.err = some ReadErr.EOF →
        ∃ n, (exec (cmdRepl w ctx n) ()).1 ≠ Outcome.running) := by
  refine ⟨⟨by decide, by decide⟩, ?_, ?_⟩
  · rintro ⟨fuel, h⟩
    exact h (linkClosed_cmdRepl (ctxOf []) fuel).1
  · intro h
    obtain ⟨n, hn⟩ := h linkClosedRepl (ctxOf []) 1 ⟨[], some ReadErr.EOF⟩
      ((linkClosed_cmdRepl (ctxOf []) 1).2 (by decide)) rfl
    exact hn (linkClosed_cmdRepl (ctxOf []) n).1

/-- Claim C8, amended: `cmdRepl` starts the link-to-console copy as a goroutine of its
own and runs the console-input-to-link copy itself, the two running concurrently: as
long as the handler has not returned, the next pass is a pass of whichever of the two
the scheduler picks, the spawned copy when it is picked and has not returned, the copy
of the handler otherwise, and neither waits for the other.  The handler terminates when
the console-input-to-link copy observes end-of-stream: it then resets the console and
returns `nil`, and more passes change nothing.  It returns `nil` exactly when its own
copy has ended.  End-of-stream observed by the link-to-console copy ends only that
copy: while console reads report no error and link writes succeed in full the handler
never returns, whatever the link reads give. -/
theorem C8_returns_when_console_input_ends {σ : Type} (w : Repl σ) (ctx : Context)
    (s : σ) :
    (∀ (fuel : Nat) (r : ReadResult),
      Event.read Stream.Stdin r ∈ (exec (cmdRepl w ctx fuel) s).2.trace →
      r.err = some ReadErr.EOF →
      (exec (cmdRepl w ctx fuel) s).1 = Outcome.returned none ∧
      (∃ copies x, Spliced copies ∧
        (exec (cmdRepl w ctx fuel) s).2.trace
          = [Event.connect (ctx.String "device") (ctx.Int "baudrate") none,
             Event.consoleCurrent true, Event.setRaw none,
             Event.go Stream.Stdout Stream.Port] ++ copies ++ [Event.reset x]) ∧
      (∀ k, exec (cmdRepl w ctx (fuel + k)) s = exec (cmdRepl w ctx fuel) s)) ∧
    (∀ fuel : Nat,
      (exec (cmdRepl w ctx fuel) s).1 = Outcome.returned none ↔
        handlerEnded (exec (cmdRepl w ctx fuel) s).2.trace = true) ∧
    ((∀ t, (w.Read Stream.Stdin t).1.err = none) →
      (∀ data t, (w.Write Stream.Port data t).1 = ⟨data.length, none⟩) →
      ∀ fuel : Nat, (exec (cmdRepl w ctx fuel) s).1 ≠ Outcome.returned none) ∧
    (∀ n : Nat, (exec (cmdRepl w ctx n) s).1 = Outcome.running →
      exec (cmdRepl w ctx (n + 1)) s =
        if ((w.schedule (exec (cmdRepl w ctx n) s).2.world).1 &&
            !spawnedEnded (exec (cmdRepl w ctx n) s).2.trace) = true then
          (Outcome.running,
            (copyPass w Stream.Stdout Stream.Port
              (scheduled w (exec (cmdRepl w ctx n) s).2)).2)
        else if (copyPass w Stream.Port Stream.Stdin
            (scheduled w (exec (cmdRepl w ctx n) s).2)).1.isSome = true then
          (Outcome.returned none,
            ⟨(w.Reset (copyPass w Stream.Port Stream.Stdin
                (scheduled w (exec (cmdRepl w ctx n) s).2)).2.world).2,
             (copyPass w Stream.Port Stream.Stdin
                (scheduled w (exec (cmdRepl w ctx n) s).2)).2.trace
              ++ [Event.reset (w.Reset (copyPass w Stream.Port Stream.Stdin
                (scheduled w (exec (cmdRepl w ctx n) s).2)).2.world).1]⟩)
        else
          (Outcome.running,
            (copyPass w Stream.Port Stream.Stdin
              (scheduled w (exec (cmdRepl w ctx n) s).2)).2)) ∧
    (∀ (dst src : Stream) (st : Run σ),
      (copyPass w dst src st).2.trace
        = st.trace ++
          (if 0 < (w.Read src st.world).1.data.length then
            [Event.read src (w.Read src st.world).1,
             Event.write dst (w.Read src st.world).1.data
              (w.Write dst (w.Read src st.world).1.data (w.Read src st.world).2).1]
           else [Event.read src (w.Read src st.world).1])) ∧
    (∀ n, (exec (cmdRepl linkClosedRepl ctx n) ()).1 = Outcome.running ∧
      (0 < n → Event.read Stream.Port ⟨[], some ReadErr.EOF⟩
        ∈ (exec (cmdRepl linkClosedRepl ctx n) ()).2.trace)) := by
  refine ⟨?_, fun fuel => cmdRepl_returned_iff w ctx fuel s,
    fun hstdin hwrite fuel => cmdRepl_console_open w ctx s hstdin hwrite fuel,
    fun n hrun => cmdRepl_step w ctx n s hrun,
    fun dst src st => (copyPass_exact w dst src st).1,
    fun n => linkClosed_cmdRepl ctx n⟩
  intro fuel r hread heof
  have hret : (exec (cmdRepl w ctx fuel) s).1 = Outcome.returned none ∧
      (∃ copies x, Spliced copies ∧
        (exec (cmdRepl w ctx fuel) s).2.trace
          = [Event.connect (ctx.String "device") (ctx.Int "baudrate") none,
             Event.consoleCurrent true, Event.setRaw none,
             Event.go Stream.Stdout Stream.Port] ++ copies ++ [Event.reset x]) := by
    rcases cmdRepl_cases w ctx fuel s with ⟨e, -, h⟩ | ⟨-, h⟩ | ⟨e, x, -, h⟩ |
      ⟨copies, hsp, hnone, -, h⟩ | ⟨copies, x, hsp, hout, h⟩
    · rw [h] at hread
      simp at hread
    · rw [h] at hread
      simp at hread
    · rw [h] at hread
      simp at hread
    · rw [h] at hread
      simp only [List.mem_append, List.mem_cons, List.mem_singleton, List.not_mem_nil,
        or_false] at hread
      rcases hread with (hread | hread | hread | hread) | hread
      · cases hread
      · cases hread
      · cases hread
      · cases hread
      · rw [hnone r hread] at heof
        cases heof
    · exact ⟨hout, copies, x, hsp, h⟩
  refine ⟨hret.1, hret.2, fun k => cmdRepl_mono w ctx fuel k s ?_⟩
  rw [hret.1]
  intro h
  cases h

theorem C8_returns_when_console_input_ends_witness :
    ((exec (cmdRepl chatRepl (ctxOf []) 4) 0).1 = Outcome.returned none ∧
      (∃ copies x, Spliced copies ∧
        (exec (cmdRepl chatRepl (ctxOf []) 4) 0).2.trace
          = [Event.connect ((ctxOf []).String "device") ((ctxOf []).Int "baudrate") none,
             Event.consoleCurrent true, Event.setRaw none,
             Event.go Stream.Stdout Stream.Port] ++ copies ++ [Event.reset x]) ∧
      (∀ k, exec (cmdRepl chatRepl (ctxOf []) (4 + k)) 0
        = exec (cmdRepl chatRepl (ctxOf []) 4) 0)) ∧
    (exec (cmdRepl chatRepl (ctxOf []) 4) 0).2.trace
      = [Event.connect "/dev/ttyUSB0" 115200 none,
         Event.consoleCurrent true, Event.setRaw none,
         Event.go Stream.Stdout Stream.Port,
         Event.read Stream.Port ⟨[79, 75], none⟩,
         Event.write Stream.Stdout [79, 75] ⟨2, none⟩,
         Event.read Stream.Stdin ⟨[120], none⟩,
         Event.write Stream.Port [120] ⟨1, none⟩,
         Event.read Stream.Port ⟨[79, 75], none⟩,
         Event.write Stream.Stdout [79, 75] ⟨2, none⟩,
         Event.read Stream.Stdin ⟨[], some ReadErr.EOF⟩,
         Event.reset none] ∧
    (exec (cmdRepl chatRepl (ctxOf []) 3) 0).1 = Outcome.running ∧
    (exec (cmdRepl chatRepl (ctxOf []) 3) 0).2.trace
      = [Event.connect "/dev/ttyUSB0" 115200 none,
         Event.consoleCurrent true, Event.setRaw none,
         Event.go Stream.Stdout Stream.Port,
         Event.read Stream.Port ⟨[79, 75], none⟩,
         Event.write Stream.Stdout [79, 75] ⟨2, none⟩,
         Event.read Stream.Stdin ⟨[120], none⟩,
         Event.write Stream.Port [120] ⟨1, none⟩,
         Event.read Stream.Port ⟨[79, 75], none⟩,
         Event.write Stream.Stdout [79, 75] ⟨2, none⟩] ∧
    (∀ fuel : Nat,
      (exec (cmdRepl linkClosedRepl (ctxOf []) fuel) ()).1 ≠ Outcome.returned none) ∧
    exec (cmdRepl chatRepl (ctxOf []) 1) 0
      = (Outcome.running,
          ⟨1, [Event.connect "/dev/ttyUSB0" 115200 none,
               Event.consoleCurrent true, Event.setRaw none,
               Event.go Stream.Stdout Stream.Port,
               Event.read Stream.Port ⟨[79, 75], none⟩,
               Event.write Stream.Stdout [79, 75] ⟨2, none⟩]⟩) :=
  ⟨(C8_returns_when_console_input_ends chatRepl (ctxOf []) 0).1 4
      ⟨[], some ReadErr.EOF⟩ (by rw [chatRepl_four_passes]; decide) rfl,
    chatRepl_four_passes, rfl, chatRepl_three_passes,
    (C8_returns_when_console_input_ends linkClosedRepl (ctxOf []) ()).2.2.1
      (fun _ => rfl) (fun _ _ => rfl),
    ((C8_returns_when_console_input_ends chatRepl (ctxOf []) 0).2.2.2.1 0 rfl).trans rfl⟩

end Zap
